import Mathlib

/-!
# github-mcp-http: protocol dispatcher, transport server and event hub

A shallow embedding of

* `internal/handlers/mcp.go` (the JSON-RPC dispatcher `MCPHandler.ProcessRPC` and its handlers),
* `internal/transport/http/server.go` (session registry, call submission, teardown, expiry sweep),
* `pkg/sse/hub.go` (the event hub and its clients),

followed by theorems about them.

Modelling conventions

* A text that is JSON by the grammar is a `JSON` tree; numbers are carried as integers. What
  `encoding/json` rejects beyond the grammar is modelled on the tree: nesting deeper than
  `maxNestingDepth`, and, where a value is decoded into an `interface{}`, a number outside the
  range of `float64`. A Go value of type `interface{}` obtained by decoding is represented by
  the tree it was decoded from; no arithmetic is ever done on the numbers.
* `map[string]interface{}` literals are `JSON.obj` association lists read with `JSON.field?`.
* Functions returning `(value, error)` return `Except`.
* Calls to the GitHub client, `json.Marshal` of its answers and the `%s` verb applied to an
  `interface{}` are external: they are fields of `Deps`, and every handler also reports the list
  of backend calls it made.
* Pointers (`*sse.Client`, contexts) are natural-number references; effects on collaborators
  (cancelling a context, sending a message to the hub, invoking the dispatcher) are logged in an
  explicit effect list.
* Goroutines are interleaved. A run of the hub is the list of the messages its loop receives.
  Each handler is first given as a function of the server state (the request handled from its
  first statement to its return); a run of the transport server is an interleaving of the
  handlers and the expiry sweep in which a step is one access to the state they share (the
  `sessions` map, a field of a session object, a context, the hub), and the accesses take
  effect in the order of the run.
-/

namespace MCP

/-! ## JSON values and `encoding/json` decoding -/

/-- A JSON document: a text that is JSON by the grammar, as a tree. -/
inductive JSON where
  | null
  | bool (b : Bool)
  | num (n : Int)
  | str (s : String)
  | arr (xs : List JSON)
  | obj (kvs : List (String × JSON))

instance : Inhabited JSON := ⟨JSON.null⟩

/-- Lookup of a key in a map literal (`none` when the value is not a map or lacks the key). -/
def JSON.field? : JSON → String → Option JSON
  | .obj kvs, k => kvs.lookup k
  | _, _ => none

/-- The name `encoding/json` uses for the kind of a JSON value in its type errors. -/
def JSON.kind : JSON → String
  | .null => "null"
  | .bool _ => "bool"
  | .num _ => "number"
  | .str _ => "string"
  | .arr _ => "array"
  | .obj _ => "object"

/-- Go `map[string]interface{}`: at most one entry per key (maintained by `GoMap.set`). -/
abbrev GoMap := List (String × JSON)

/-- Go `m[k]`: the value stored under `k`, `nil` when there is none (also for a nil map). -/
def GoMap.get (m : GoMap) (k : String) : JSON :=
  (m.lookup k).getD JSON.null

/-- Go `m[k] = v`. -/
def GoMap.set (m : GoMap) (k : String) (v : JSON) : GoMap :=
  (k, v) :: m.filter (fun kv => kv.1 != k)

/-- Go type assertion `v.(string)` in its two-result form. -/
def asString : JSON → Option String
  | .str s => some s
  | _ => none

mutual
/-- The nesting depth of a document: the number of arrays and objects the scanner of
`encoding/json` has open at its innermost value. -/
def JSON.depth : JSON → Nat
  | .arr xs => JSON.depthList xs + 1
  | .obj kvs => JSON.depthFields kvs + 1
  | _ => 0
/-- The largest depth among the elements of an array. -/
def JSON.depthList : List JSON → Nat
  | [] => 0
  | x :: xs => max x.depth (JSON.depthList xs)
/-- The largest depth among the values of an object. -/
def JSON.depthFields : List (String × JSON) → Nat
  | [] => 0
  | kv :: kvs => max kv.2.depth (JSON.depthFields kvs)
end

/-- The constant `maxNestingDepth` of `encoding/json`: a document may open this many arrays and
objects inside one another, one more is the syntax error `exceeded max depth`. -/
def maxNestingDepth : Nat := 10000

/-- The magnitude from which `strconv.ParseFloat(s, 64)` reports a range error: `2^1024 - 2^970`,
half an ulp above the largest `float64` (the tie rounds to even, that is up and out of range). -/
def float64Overflow : Nat :=
  0xfffffffffffffc00000000000000000000000000000000000000000000000000000000000000000000000000000000000000000000000000000000000000000000000000000000000000000000000000000000000000000000000000000000000000000000000000000000000000000000000000000000000000000000000000

mutual
/-- Whether every number of a document, at any depth, converts to a `float64`. -/
def JSON.numbersFit : JSON → Bool
  | .num n => n.natAbs < float64Overflow
  | .arr xs => JSON.numbersFitList xs
  | .obj kvs => JSON.numbersFitFields kvs
  | _ => true
/-- The same for the elements of an array. -/
def JSON.numbersFitList : List JSON → Bool
  | [] => true
  | x :: xs => x.numbersFit && JSON.numbersFitList xs
/-- The same for the values of an object. -/
def JSON.numbersFitFields : List (String × JSON) → Bool
  | [] => true
  | kv :: kvs => kv.2.numbersFit && JSON.numbersFitFields kvs
end

/-- The errors `json.Unmarshal` reports on input that is JSON by the grammar, or empty. -/
inductive UnmarshalError where
  /-- Empty input: `unexpected end of JSON input`. -/
  | unexpectedEnd
  /-- The syntax error `exceeded max depth` of the validity pass. -/
  | exceededMaxDepth
  /-- An `UnmarshalTypeError`: a JSON value of kind `value` met at struct field `field`
  (`field = ""` for the struct itself). A number that does not fit a `float64` is reported with
  `value = "number"` (Go adds the literal). -/
  | typeMismatch (value : String) (field : String)
deriving DecidableEq, Repr

/-- The pass `checkValid` with which `json.Unmarshal` starts, before it stores anything: on a
text that is JSON by the grammar it fails exactly when the nesting exceeds `maxNestingDepth`. -/
def checkValid (v : JSON) : Except UnmarshalError Unit :=
  if maxNestingDepth < v.depth then .error .exceededMaxDepth else .ok ()

/-- The fold `encoding/json` applies to the runes of an object key and of a field name before it
compares them (`foldName`): ASCII letters lose their case, any other rune is replaced by the
smallest rune of its orbit under `unicode.SimpleFold`. Two runes outside ASCII have an ASCII
letter in their orbit: U+017F (long s, with `S` and `s`) and U+212A (Kelvin sign, with `K` and
`k`). Every other rune outside ASCII folds to a rune outside ASCII and is left as it is here:
the field names of the structs below are ASCII, a key with such a rune matches none of them. -/
def foldRune (c : Char) : Char :=
  if c = Char.ofNat 0x17F then 's'
  else if c = Char.ofNat 0x212A then 'k'
  else c.toLower

/-- The folded form of a key or field name. -/
def foldKey (s : String) : List Char :=
  s.data.map foldRune

/-- Whether object key `key` selects the struct field tagged `field` (an ASCII name): the key
equals the name, or, failing that, their folded forms are equal. The field names of one struct
are pairwise different after folding, so a key selects at most one field. -/
def keyMatches (field key : String) : Bool :=
  key == field || foldKey key == foldKey field

/-- Decoding a JSON value into a field of Go type `string`: a string is stored, `null` leaves the
field as it is, anything else is a type error. -/
def decodeStringField (field : String) (cur : String) : JSON → Except UnmarshalError String
  | .str s => .ok s
  | .null => .ok cur
  | v => .error (.typeMismatch v.kind field)

/-- Decoding a JSON value into an `interface{}` (the field `id`, the values of the `arguments`
map): the value is stored whole, numbers as `float64`, also those inside arrays and objects; a
number out of the range of `float64` is a type error. -/
def decodeInterface (field : String) (v : JSON) : Except UnmarshalError JSON :=
  if v.numbersFit then .ok v else .error (.typeMismatch "number" field)

/-- Decoding a JSON value into a field of type `map[string]interface{}`: the values of an object
are decoded and stored into the map key by key (later keys win), `null` resets the map to nil,
anything else is a type error. -/
def decodeMapField (field : String) (cur : GoMap) : JSON → Except UnmarshalError GoMap
  | .obj kvs =>
    kvs.foldlM (fun m kv => (decodeInterface field kv.2).map (fun v => m.set kv.1 v)) cur
  | .null => .ok []
  | v => .error (.typeMismatch v.kind field)

/-- The anonymous struct `rpcReq` of `ProcessRPC`. `Params` is a `json.RawMessage`: `none` is the
empty message (no `params` key seen), `some v` the raw text of the value `v`, stored without
being decoded. -/
structure RpcReq where
  JSONRPC : String := ""
  Method : String := ""
  Params : Option JSON := none
  ID : JSON := JSON.null

/-- One key/value pair of the request object stored into `rpcReq`; the value of a key that
selects no field is skipped. -/
def decodeRpcField (acc : RpcReq) (kv : String × JSON) : Except UnmarshalError RpcReq :=
  if keyMatches "jsonrpc" kv.1 then
    (decodeStringField "jsonrpc" acc.JSONRPC kv.2).map (fun s => { acc with JSONRPC := s })
  else if keyMatches "method" kv.1 then
    (decodeStringField "method" acc.Method kv.2).map (fun s => { acc with Method := s })
  else if keyMatches "params" kv.1 then
    .ok { acc with Params := some kv.2 }
  else if keyMatches "id" kv.1 then
    (decodeInterface "id" kv.2).map (fun v => { acc with ID := v })
  else
    .ok acc

/-- The call `json.Unmarshal(request, &rpcReq)`: after the validity pass, `null` leaves the zero
struct, an object is decoded key by key (the first type error is the one returned), any other
value is a type error. -/
def unmarshalRpcReq (request : JSON) : Except UnmarshalError RpcReq :=
  match checkValid request with
  | .error err => .error err
  | .ok _ =>
    match request with
    | .null => .ok {}
    | .obj kvs => kvs.foldlM decodeRpcField {}
    | v => .error (.typeMismatch v.kind "")

/-- The anonymous struct `req` of `handleReadResource`. -/
structure ReadResourceReq where
  URI : String := ""

/-- One key/value pair stored into the `handleReadResource` struct. -/
def decodeReadResourceField (acc : ReadResourceReq) (kv : String × JSON) :
    Except UnmarshalError ReadResourceReq :=
  if keyMatches "uri" kv.1 then
    (decodeStringField "uri" acc.URI kv.2).map (fun s => { acc with URI := s })
  else
    .ok acc

/-- The call `json.Unmarshal(params, &req)` of `handleReadResource`; an empty raw message is a
syntax error. -/
def unmarshalReadResourceReq : Option JSON → Except UnmarshalError ReadResourceReq
  | none => .error .unexpectedEnd
  | some params =>
    match checkValid params with
    | .error err => .error err
    | .ok _ =>
      match params with
      | .null => .ok {}
      | .obj kvs => kvs.foldlM decodeReadResourceField {}
      | v => .error (.typeMismatch v.kind "")

/-- The anonymous struct `req` of `handleCallTool` and of `handleGetPrompt`. -/
structure NamedReq where
  Name : String := ""
  Arguments : GoMap := []

/-- One key/value pair stored into the `handleCallTool` / `handleGetPrompt` struct. -/
def decodeNamedField (acc : NamedReq) (kv : String × JSON) : Except UnmarshalError NamedReq :=
  if keyMatches "name" kv.1 then
    (decodeStringField "name" acc.Name kv.2).map (fun s => { acc with Name := s })
  else if keyMatches "arguments" kv.1 then
    (decodeMapField "arguments" acc.Arguments kv.2).map (fun m => { acc with Arguments := m })
  else
    .ok acc

/-- The call `json.Unmarshal(params, &req)` of `handleCallTool` and `handleGetPrompt`. -/
def unmarshalNamedReq : Option JSON → Except UnmarshalError NamedReq
  | none => .error .unexpectedEnd
  | some params =>
    match checkValid params with
    | .error err => .error err
    | .ok _ =>
      match params with
      | .null => .ok {}
      | .obj kvs => kvs.foldlM decodeNamedField {}
      | v => .error (.typeMismatch v.kind "")

/-! ## The protocol dispatcher (`internal/handlers/mcp.go`) -/

/-- A call to the GitHub REST client made by a handler. -/
inductive BackendCall where
  /-- `Repositories.List(ctx, "", {Type, Sort, PerPage: 50})`. -/
  | repositoriesList (repoType : String) (sort : String)
  /-- `Users.Get(ctx, "")`. -/
  | usersGet
  /-- `Repositories.Get(ctx, owner, repo)`. -/
  | repositoriesGet (owner : String) (repo : String)
  /-- `Issues.Create(ctx, owner, repo, {Title, Body})`. -/
  | issuesCreate (owner : String) (repo : String) (title : String) (body : String)
deriving DecidableEq, Repr

/-- The external collaborators of the handlers; their behaviour is arbitrary. -/
structure Deps where
  /-- The answer of the GitHub client to a call: a value or an error text. -/
  github : BackendCall → Except String JSON
  /-- The call `json.Marshal` on an answer of the GitHub client. -/
  marshal : JSON → Except String String
  /-- The `%s` verb of `fmt.Sprintf` applied to an `interface{}` that is not a string. -/
  sprintOther : JSON → String

/-- The `%s` verb of `fmt.Sprintf` applied to an `interface{}` value. -/
def sprintS (d : Deps) : JSON → String
  | .str s => s
  | v => d.sprintOther v

/-- A Go `error` returned by a handler. -/
inductive GoError where
  /-- `fmt.Errorf(msg + ": %w", err)` wrapping an error of `json.Unmarshal`. -/
  | decode (msg : String) (cause : UnmarshalError)
  /-- `fmt.Errorf(msg + ": %w", err)` wrapping an error of the GitHub client or `json.Marshal`. -/
  | backend (msg : String) (cause : String)
deriving DecidableEq, Repr

/-- What a handler does: the pair `(interface{}, error)` it returns and the backend calls it
made, in order. -/
structure Outcome where
  ret : Except GoError JSON
  calls : List BackendCall

/-- The handler object; the two GitHub clients are in `Deps`. -/
structure MCPHandler where
  readOnly : Bool

/-- The text content block shared by the tool results. -/
def textContent (text : String) : JSON :=
  .arr [.obj [("type", .str "text"), ("text", .str text)]]

/-- The handler of `resources/list`. -/
def handleListResources (id : JSON) : Outcome :=
  let resources : JSON := .arr [
    .obj [("uri", .str "github://repositories"), ("name", .str "repositories"),
          ("description", .str "List of user repositories"), ("mimeType", .str "application/json")],
    .obj [("uri", .str "github://user"), ("name", .str "user"),
          ("description", .str "Current user information"), ("mimeType", .str "application/json")]]
  { ret := .ok (.obj [("jsonrpc", .str "2.0"),
                      ("result", .obj [("resources", resources)]),
                      ("id", id)]),
    calls := [] }

/-- The handler of `resources/read`. -/
def handleReadResource (d : Deps) (params : Option JSON) (id : JSON) : Outcome :=
  match unmarshalReadResourceReq params with
  | .error err => { ret := .error (.decode "invalid read resource request" err), calls := [] }
  | .ok req =>
    if req.URI = "github://repositories" then
      let call := BackendCall.repositoriesList "all" ""
      match d.github call with
      | .error err => { ret := .error (.backend "failed to list repositories" err), calls := [call] }
      | .ok repos =>
        match d.marshal repos with
        | .error err =>
          { ret := .error (.backend "failed to marshal repositories" err), calls := [call] }
        | .ok data =>
          { ret := .ok (.obj [("jsonrpc", .str "2.0"),
                              ("result", .obj [("contents", .arr [.obj [
                                ("uri", .str req.URI), ("mimeType", .str "application/json"),
                                ("text", .str data)]])]),
                              ("id", id)]),
            calls := [call] }
    else if req.URI = "github://user" then
      let call := BackendCall.usersGet
      match d.github call with
      | .error err => { ret := .error (.backend "failed to get user" err), calls := [call] }
      | .ok user =>
        match d.marshal user with
        | .error err => { ret := .error (.backend "failed to marshal user" err), calls := [call] }
        | .ok data =>
          { ret := .ok (.obj [("jsonrpc", .str "2.0"),
                              ("result", .obj [("contents", .arr [.obj [
                                ("uri", .str req.URI), ("mimeType", .str "application/json"),
                                ("text", .str data)]])]),
                              ("id", id)]),
            calls := [call] }
    else
      { ret := .ok (.obj [("jsonrpc", .str "2.0"),
                          ("error", .obj [("code", .num (-32602)),
                                          ("message", .str ("Unknown resource URI: " ++ req.URI))]),
                          ("id", id)]),
        calls := [] }

/-- The `tools` slice built by `handleListTools`. -/
def listedTools (h : MCPHandler) : List JSON :=
  let tools : List JSON := [
    .obj [("name", .str "list_repositories"),
          ("description", .str "List user repositories"),
          ("inputSchema", .obj [
            ("type", .str "object"),
            ("properties", .obj [
              ("type", .obj [("type", .str "string"),
                             ("description", .str "Repository type (all, owner, member)"),
                             ("default", .str "all")]),
              ("sort", .obj [("type", .str "string"),
                             ("description", .str "Sort order (created, updated, pushed, full_name)"),
                             ("default", .str "updated")])])])],
    .obj [("name", .str "get_repository"),
          ("description", .str "Get repository information"),
          ("inputSchema", .obj [
            ("type", .str "object"),
            ("properties", .obj [
              ("owner", .obj [("type", .str "string"), ("description", .str "Repository owner")]),
              ("repo", .obj [("type", .str "string"), ("description", .str "Repository name")])]),
            ("required", .arr [.str "owner", .str "repo"])])]]
  if !h.readOnly then
    tools ++ [
      .obj [("name", .str "create_issue"),
            ("description", .str "Create a new issue"),
            ("inputSchema", .obj [
              ("type", .str "object"),
              ("properties", .obj [
                ("owner", .obj [("type", .str "string"), ("description", .str "Repository owner")]),
                ("repo", .obj [("type", .str "string"), ("description", .str "Repository name")]),
                ("title", .obj [("type", .str "string"), ("description", .str "Issue title")]),
                ("body", .obj [("type", .str "string"), ("description", .str "Issue body")])]),
              ("required", .arr [.str "owner", .str "repo", .str "title"])])]]
  else
    tools

/-- The handler of `tools/list`. -/
def handleListTools (h : MCPHandler) (id : JSON) : Outcome :=
  { ret := .ok (.obj [("jsonrpc", .str "2.0"),
                      ("result", .obj [("tools", .arr (listedTools h))]),
                      ("id", id)]),
    calls := [] }

/-- The tool `list_repositories`. -/
def listRepositories (d : Deps) (args : GoMap) (id : JSON) : Outcome :=
  let repoType := (asString (args.get "type")).getD "all"
  let sort := (asString (args.get "sort")).getD "updated"
  let call := BackendCall.repositoriesList repoType sort
  match d.github call with
  | .error err => { ret := .error (.backend "failed to list repositories" err), calls := [call] }
  | .ok repos =>
    match d.marshal repos with
    | .error err =>
      { ret := .error (.backend "failed to marshal repositories" err), calls := [call] }
    | .ok data =>
      { ret := .ok (.obj [("jsonrpc", .str "2.0"),
                          ("result", .obj [("content", textContent data)]),
                          ("id", id)]),
        calls := [call] }

/-- The tool `get_repository`. -/
def getRepository (d : Deps) (args : GoMap) (id : JSON) : Outcome :=
  match asString (args.get "owner") with
  | none =>
    { ret := .ok (.obj [("jsonrpc", .str "2.0"),
                        ("error", .obj [("code", .num (-32602)),
                                        ("message", .str "owner is required")]),
                        ("id", id)]),
      calls := [] }
  | some owner =>
    match asString (args.get "repo") with
    | none =>
      { ret := .ok (.obj [("jsonrpc", .str "2.0"),
                          ("error", .obj [("code", .num (-32602)),
                                          ("message", .str "repo is required")]),
                          ("id", id)]),
        calls := [] }
    | some repo =>
      let call := BackendCall.repositoriesGet owner repo
      match d.github call with
      | .error err => { ret := .error (.backend "failed to get repository" err), calls := [call] }
      | .ok repository =>
        match d.marshal repository with
        | .error err =>
          { ret := .error (.backend "failed to marshal repository" err), calls := [call] }
        | .ok data =>
          { ret := .ok (.obj [("jsonrpc", .str "2.0"),
                              ("result", .obj [("content", textContent data)]),
                              ("id", id)]),
            calls := [call] }

/-- The tool `create_issue`. -/
def createIssue (d : Deps) (args : GoMap) (id : JSON) : Outcome :=
  match asString (args.get "owner") with
  | none =>
    { ret := .ok (.obj [("jsonrpc", .str "2.0"),
                        ("error", .obj [("code", .num (-32602)),
                                        ("message", .str "owner is required")]),
                        ("id", id)]),
      calls := [] }
  | some owner =>
    match asString (args.get "repo") with
    | none =>
      { ret := .ok (.obj [("jsonrpc", .str "2.0"),
                          ("error", .obj [("code", .num (-32602)),
                                          ("message", .str "repo is required")]),
                          ("id", id)]),
        calls := [] }
    | some repo =>
      match asString (args.get "title") with
      | none =>
        { ret := .ok (.obj [("jsonrpc", .str "2.0"),
                            ("error", .obj [("code", .num (-32602)),
                                            ("message", .str "title is required")]),
                            ("id", id)]),
          calls := [] }
      | some title =>
        let body := (asString (args.get "body")).getD ""
        let call := BackendCall.issuesCreate owner repo title body
        match d.github call with
        | .error err => { ret := .error (.backend "failed to create issue" err), calls := [call] }
        | .ok createdIssue =>
          match d.marshal createdIssue with
          | .error err =>
            { ret := .error (.backend "failed to marshal issue" err), calls := [call] }
          | .ok data =>
            { ret := .ok (.obj [("jsonrpc", .str "2.0"),
                                ("result", .obj [("content", textContent data)]),
                                ("id", id)]),
              calls := [call] }

/-- The handler of `tools/call`. -/
def handleCallTool (h : MCPHandler) (d : Deps) (params : Option JSON) (id : JSON) : Outcome :=
  match unmarshalNamedReq params with
  | .error err => { ret := .error (.decode "invalid call tool request" err), calls := [] }
  | .ok req =>
    if req.Name = "list_repositories" then
      listRepositories d req.Arguments id
    else if req.Name = "get_repository" then
      getRepository d req.Arguments id
    else if req.Name = "create_issue" then
      if h.readOnly then
        { ret := .ok (.obj [("jsonrpc", .str "2.0"),
                            ("error", .obj [("code", .num (-32602)),
                                            ("message", .str "Tool not available in read-only mode")]),
                            ("id", id)]),
          calls := [] }
      else
        createIssue d req.Arguments id
    else
      { ret := .ok (.obj [("jsonrpc", .str "2.0"),
                          ("error", .obj [("code", .num (-32602)),
                                          ("message", .str ("Unknown tool: " ++ req.Name))]),
                          ("id", id)]),
        calls := [] }

/-- The handler of `prompts/list`. -/
def handleListPrompts (id : JSON) : Outcome :=
  let prompts : JSON := .arr [
    .obj [("name", .str "analyze_repository"),
          ("description", .str "Analyze a GitHub repository for insights"),
          ("arguments", .arr [
            .obj [("name", .str "owner"), ("description", .str "Repository owner"),
                  ("required", .bool true)],
            .obj [("name", .str "repo"), ("description", .str "Repository name"),
                  ("required", .bool true)]])]]
  { ret := .ok (.obj [("jsonrpc", .str "2.0"),
                      ("result", .obj [("prompts", prompts)]),
                      ("id", id)]),
    calls := [] }

/-- The handler of `prompts/get`. -/
def handleGetPrompt (d : Deps) (params : Option JSON) (id : JSON) : Outcome :=
  match unmarshalNamedReq params with
  | .error err => { ret := .error (.decode "invalid get prompt request" err), calls := [] }
  | .ok req =>
    if req.Name = "analyze_repository" then
      let owner := req.Arguments.get "owner"
      let repo := req.Arguments.get "repo"
      let prompt := "Analyze the GitHub repository " ++ sprintS d owner ++ "/" ++ sprintS d repo ++
        " and provide insights on:\n\n" ++
        "1. Repository overview and purpose\n" ++
        "2. Code structure and organization  \n" ++
        "3. Development activity and health\n" ++
        "4. Key technologies and dependencies\n" ++
        "5. Documentation quality\n" ++
        "6. Community engagement\n\n" ++
        "Please focus on actionable insights and recommendations."
      { ret := .ok (.obj [("jsonrpc", .str "2.0"),
                          ("result", .obj [
                            ("description", .str "Repository analysis prompt"),
                            ("messages", .arr [.obj [
                              ("role", .str "user"),
                              ("content", .obj [("type", .str "text"), ("text", .str prompt)])]])]),
                          ("id", id)]),
        calls := [] }
    else
      { ret := .ok (.obj [("jsonrpc", .str "2.0"),
                          ("error", .obj [("code", .num (-32602)),
                                          ("message", .str ("Unknown prompt: " ++ req.Name))]),
                          ("id", id)]),
        calls := [] }

/-- The dispatcher: the request is decoded and routed on its method. The context argument is
only handed on to the GitHub client and is left out. -/
def ProcessRPC (h : MCPHandler) (d : Deps) (request : JSON) : Outcome :=
  match unmarshalRpcReq request with
  | .error err => { ret := .error (.decode "invalid JSON-RPC request" err), calls := [] }
  | .ok rpcReq =>
    if rpcReq.Method = "resources/list" then
      handleListResources rpcReq.ID
    else if rpcReq.Method = "resources/read" then
      handleReadResource d rpcReq.Params rpcReq.ID
    else if rpcReq.Method = "tools/list" then
      handleListTools h rpcReq.ID
    else if rpcReq.Method = "tools/call" then
      handleCallTool h d rpcReq.Params rpcReq.ID
    else if rpcReq.Method = "prompts/list" then
      handleListPrompts rpcReq.ID
    else if rpcReq.Method = "prompts/get" then
      handleGetPrompt d rpcReq.Params rpcReq.ID
    else
      { ret := .ok (.obj [("jsonrpc", .str "2.0"),
                          ("error", .obj [("code", .num (-32601)),
                                          ("message", .str "Method not found")]),
                          ("id", rpcReq.ID)]),
        calls := [] }

/-! ## The event hub (`pkg/sse/hub.go`) -/

/-- An `sse.Event`; `Kind` is its field `Type`, `Data` is `none` for a nil interface. -/
structure Event where
  ID : String := ""
  Kind : String := ""
  Data : Option JSON := none

/-- A buffered channel of events (`chan Event`): its queued events, oldest first, its capacity
and whether `close` was called on it. -/
structure Chan where
  buf : List Event
  cap : Nat
  closed : Bool

/-- What the statement `select { case ch <- e: default: ... }` does. -/
inductive SendResult where
  /-- The event was enqueued; the channel afterwards. -/
  | sent (ch : Chan)
  /-- The buffer is full: the `default` branch runs. -/
  | full
  /-- The channel is closed: the send panics. -/
  | panic

/-- The non-blocking send of one event on a buffered channel nobody is receiving from. -/
def Chan.trySend (ch : Chan) (e : Event) : SendResult :=
  if ch.closed then .panic
  else if ch.buf.length < ch.cap then .sent { ch with buf := ch.buf ++ [e] }
  else .full

/-- An `sse.Client` object; `Response` is the text written to its `http.ResponseWriter`. -/
structure Client where
  ID : String
  Events : Chan
  Response : List String
  closed : Bool

/-- A pointer `*sse.Client`. -/
abbrev ClientRef := Nat

/-- The constructor of clients: an open client with an empty queue of capacity 256. -/
def NewClient (id : String) : Client :=
  { ID := id, Events := { buf := [], cap := 256, closed := false }, Response := [], closed := false }

/-- The method `Close`: closes the channel and sets the flag, once. -/
def Client.Close (c : Client) : Client :=
  if !c.closed then
    { c with Events := { c.Events with closed := true }, closed := true }
  else
    c

/-- The hub together with the client objects its pointers refer to. `spawned` lists the
goroutines started by `go h.Unregister(client)` whose message the hub has not yet received. -/
structure Hub where
  clients : AList (fun _ : String => ClientRef)
  heap : ClientRef → Client
  spawned : List ClientRef

/-- The hub `NewHub` returns, in a world with the client objects `heap`. -/
def NewHub (heap : ClientRef → Client) : Hub :=
  { clients := ∅, heap := heap, spawned := [] }

/-- A message received by `Hub.Run` on one of its three channels. -/
inductive HubMsg where
  | register (client : ClientRef)
  | unregister (client : ClientRef)
  | broadcast (event : Event)

/-- The `register` case of `Hub.Run`. -/
def Hub.onRegister (h : Hub) (client : ClientRef) : Hub :=
  { h with clients := h.clients.insert (h.heap client).ID client }

/-- The `unregister` case of `Hub.Run`. -/
def Hub.onUnregister (h : Hub) (client : ClientRef) : Hub :=
  if (h.clients.lookup (h.heap client).ID).isSome then
    { h with
      clients := h.clients.erase (h.heap client).ID
      heap := Function.update h.heap client (h.heap client).Close }
  else
    h

/-- The body of the `for _, client := range h.clients` loop of the `broadcast` case for one map
entry; `none` is a panic. -/
def Hub.broadcastTo (event : Event) (acc : Option Hub) (entry : Sigma fun _ : String => ClientRef) :
    Option Hub :=
  acc.bind fun h =>
    match (h.heap entry.2).Events.trySend event with
    | .sent ch => some { h with heap := Function.update h.heap entry.2 { h.heap entry.2 with Events := ch } }
    | .full => some { h with spawned := h.spawned ++ [entry.2] }
    | .panic => none

/-- The `broadcast` case of `Hub.Run`; `none` is a panic. -/
def Hub.onBroadcast (h : Hub) (event : Event) : Option Hub :=
  h.clients.entries.foldl (Hub.broadcastTo event) (some h)

/-- One iteration of the loop of `Hub.Run`, for the message it received; `none` is a panic. -/
def Hub.Run (h : Hub) : HubMsg → Option Hub
  | .register client => some (h.onRegister client)
  | .unregister client => some (h.onUnregister client)
  | .broadcast event => h.onBroadcast event

/-- A `time.Time`, in nanoseconds since the Unix epoch. -/
abbrev Time := Int

/-- The constant `time.Minute` as a `time.Duration` (nanoseconds). -/
def minute : Int := 60 * 1000000000

/-- A cancellable context together with its cancel function. -/
abbrev CtxRef := Nat

/-- A session of the registry; `Context` stands for the pair of `Context` and `Cancel`. -/
structure Session where
  ID : String
  Client : Option ClientRef
  Context : CtxRef
  LastActive : Time
deriving DecidableEq, Repr

/-- What a handler does to its collaborators. -/
inductive Effect where
  /-- `session.Cancel()`. -/
  | cancel (ctx : CtxRef)
  /-- `s.sseHub.Unregister(client)`. -/
  | hubUnregister (client : ClientRef)
  /-- `s.mcpHandler.ProcessRPC(ctx, request)`. -/
  | processRPC (ctx : CtxRef) (request : JSON)
  /-- A call to the GitHub client made inside `ProcessRPC`. -/
  | backend (call : BackendCall)
  /-- `s.sseHub.Register(client)`. -/
  | hubRegister (client : ClientRef)
  /-- `client.Send(event)`. -/
  | clientSend (client : ClientRef) (event : Event)

/-- The server: its dispatcher, the content of the `sessions` map, and the number of contexts
created so far (the next `context.WithCancel` returns context `nextCtx`). -/
structure Server where
  mcpHandler : MCPHandler
  sessions : AList (fun _ : String => Session)
  nextCtx : CtxRef

/-- What was written to the `http.ResponseWriter`. -/
structure HTTPResponse where
  status : Nat
  contentType : Option String
  body : Option JSON

/-- The result of running a handler: the server afterwards, the response, and the effects. -/
structure Handled where
  server : Server
  response : HTTPResponse
  effects : List Effect

/-- The response `writeError` writes: the status and a JSON body with the message. -/
def writeError (code : Nat) (message : String) : HTTPResponse :=
  { status := code, contentType := some "application/json",
    body := some (.obj [("error", .str message)]) }

/-- The decimal text `%d` prints for an integer. -/
def sprintD (n : Int) : String :=
  toString n

/-- The function `generateSessionID`, for the two clock readings it takes: `nowNano` for `UnixNano()` and
`nowSec` for `Unix()`. -/
def generateSessionID (nowNano : Time) (nowSec : Time) : String :=
  sprintD nowNano ++ "-" ++ sprintD (Int.fdiv nowSec 1000000000)

/-- The value `MCPHandler.Initialize` returns (its error is always nil), JSON-encoded. -/
def Initialize : Except GoError (JSON × JSON) :=
  let capabilities : JSON := .obj [
    ("resources", .obj [("subscribe", .bool true), ("listChanged", .bool true)]),
    ("tools", .obj [("listChanged", .bool true)]),
    ("prompts", .obj [("listChanged", .bool true)])]
  let serverInfo : JSON := .obj [("name", .str "github-mcp-http"), ("version", .str "1.0.0")]
  .ok (serverInfo, capabilities)

/-- The handler `handleConnect`: `body` is `none` when the request body does not decode; `nowNano`, `nowSec`
and `nowActive` are the three clock readings, in the order they are taken. -/
def handleConnect (s : Server) (nowNano nowSec nowActive : Time) (body : Option (String × String)) :
    Handled :=
  match body with
  | none => { server := s, response := writeError 400 "Invalid request body", effects := [] }
  | some _ =>
    let sessionID := generateSessionID nowNano nowSec
    let ctx := s.nextCtx
    let session : Session :=
      { ID := sessionID, Client := none, Context := ctx, LastActive := nowActive }
    let s1 : Server :=
      { s with sessions := s.sessions.insert sessionID session, nextCtx := s.nextCtx + 1 }
    match Initialize with
    | .error _ =>
      { server := s1, response := writeError 500 "Failed to initialize MCP connection",
        effects := [] }
    | .ok initResult =>
      { server := s1,
        response :=
          { status := 200, contentType := some "application/json",
            body := some (.obj [("sessionId", .str sessionID),
                                ("serverInfo", initResult.1),
                                ("capabilities", initResult.2)]) },
        effects := [] }

/-- The handler `handleDisconnect` for the value of the `X-Session-ID` header (`""` when absent). -/
def handleDisconnect (s : Server) (sessionID : String) : Handled :=
  if sessionID = "" then
    { server := s, response := writeError 400 "Missing session ID", effects := [] }
  else
    match s.sessions.lookup sessionID with
    | some sess =>
      { server := { s with sessions := s.sessions.erase sessionID },
        response := { status := 204, contentType := none, body := none },
        effects := [Effect.cancel sess.Context] ++
          (match sess.Client with
           | some client => [Effect.hubUnregister client]
           | none => []) }
    | none =>
      { server := { s with sessions := s.sessions.erase sessionID },
        response := { status := 204, contentType := none, body := none },
        effects := [] }

/-- What `json.NewDecoder(r.Body).Decode(&rpcReq)` stores into the raw message, for the JSON text
the request body starts with (`none` when it starts with none): the text itself, unless it is
nested deeper than the scanner allows. -/
def decodeBody : Option JSON → Option JSON
  | none => none
  | some v =>
    match checkValid v with
    | .error _ => none
    | .ok _ => some v

/-- The handler `handleRPC` for the value of the `X-Session-ID` header (`""` when absent), the clock reading
`now` and the JSON text the request body starts with (`none` when it starts with none). -/
def handleRPC (s : Server) (d : Deps) (now : Time) (sessionID : String) (body : Option JSON) :
    Handled :=
  if sessionID = "" then
    { server := s, response := writeError 400 "Missing session ID", effects := [] }
  else
    match s.sessions.lookup sessionID with
    | none => { server := s, response := writeError 401 "Invalid session", effects := [] }
    | some session =>
      let s1 : Server :=
        { s with sessions := s.sessions.replace sessionID { session with LastActive := now } }
      match decodeBody body with
      | none => { server := s1, response := writeError 400 "Invalid RPC request", effects := [] }
      | some rpcReq =>
        let out := ProcessRPC s.mcpHandler d rpcReq
        let effects := Effect.processRPC session.Context rpcReq :: out.calls.map Effect.backend
        match out.ret with
        | .error _ =>
          { server := s1, response := writeError 500 "RPC processing failed", effects := effects }
        | .ok response =>
          { server := s1,
            response := { status := 200, contentType := some "application/json",
                          body := some response },
            effects := effects }

/-- The callback `cleanupSessions` passes to `sessions.Range`, for one entry of the map. -/
def sweepSession (now : Time) (acc : Server × List Effect)
    (entry : Sigma fun _ : String => Session) : Server × List Effect :=
  let session := entry.2
  if now - session.LastActive > 30 * minute then
    ({ acc.1 with sessions := acc.1.sessions.erase entry.1 },
     acc.2 ++ [Effect.cancel session.Context] ++
       (match session.Client with
        | some client => [Effect.hubUnregister client]
        | none => []))
  else
    acc

/-- One tick of `cleanupSessions` at clock reading `now`: the `Range` over the sessions, which
visits every entry once (in the order of `entries`; Go leaves the order open). The difference
`now.Sub(LastActive)` saturates at about 292 years in Go, which does not change its comparison
with 30 minutes. -/
def cleanupSessions (s : Server) (now : Time) : Server × List Effect :=
  s.sessions.entries.foldl (sweepSession now) (s, [])

/-! ## Vocabulary of the statements -/

/-- The shape every envelope has: version "2.0", exactly one of `result` and `error`, and the
given id. -/
def EnvelopeShape (resp : JSON) (id : JSON) : Prop :=
  resp.field? "jsonrpc" = some (.str "2.0") ∧
  (((resp.field? "result").isSome = true ∧ resp.field? "error" = none) ∨
   (resp.field? "result" = none ∧ (resp.field? "error").isSome = true)) ∧
  resp.field? "id" = some id

/-- An error envelope: version "2.0", an error object with the given code and message, no
`result` field, and the given id. -/
def IsErrorEnvelope (resp : JSON) (code : Int) (message : String) (id : JSON) : Prop :=
  resp.field? "jsonrpc" = some (.str "2.0") ∧
  (resp.field? "error").bind (fun e => e.field? "code") = some (.num code) ∧
  (resp.field? "error").bind (fun e => e.field? "message") = some (.str message) ∧
  resp.field? "result" = none ∧
  resp.field? "id" = some id

/-- The arguments a tool declares as required, in the order of its `required` schema entry. -/
def requiredArgs (tool : String) : List String :=
  if tool = "get_repository" then ["owner", "repo"]
  else if tool = "create_issue" then ["owner", "repo", "title"]
  else []

/-- The first of the `required` arguments for which `args` holds no string value. -/
def firstMissing (required : List String) (args : GoMap) : Option String :=
  required.find? (fun k => (asString (args.get k)).isNone)

/-- The tool names a `tools/list` outcome advertises. -/
def toolNames (out : Outcome) : List String :=
  match out.ret with
  | .ok resp =>
    match (resp.field? "result").bind (fun r => r.field? "tools") with
    | some (.arr tools) => tools.filterMap (fun t => (t.field? "name").bind asString)
    | _ => []
  | .error _ => []

/-- The teardown of one session: its cancel function is invoked and, if it holds an event
client, that client is unregistered from the hub. -/
def teardownEffects (sess : Session) : List Effect :=
  Effect.cancel sess.Context ::
    (match sess.Client with
     | some client => [Effect.hubUnregister client]
     | none => [])

/-- A session is idle at `now`: its last activity is more than 30 minutes old. -/
def idle (now : Time) (sess : Session) : Prop :=
  now - sess.LastActive > 30 * minute

instance (now : Time) (sess : Session) : Decidable (idle now sess) := by
  unfold idle; infer_instance

/-- The client with event `e` appended at the tail of its queue, everything else unchanged. -/
def Client.enqueue (c : Client) (e : Event) : Client :=
  { c with Events := { c.Events with buf := c.Events.buf ++ [e] } }

/-- The queue of the client has room for one more event. -/
def Client.hasRoom (c : Client) : Prop :=
  c.Events.buf.length < c.Events.cap

instance (c : Client) : Decidable c.hasRoom := by
  unfold Client.hasRoom; infer_instance

/-! ## Sending on a client and runs of the hub -/

/-- The method `Send`: the client afterwards and the error returned (`none` for nil). Every
`fmt.Fprintf` on the response appends one chunk to `Response`; the flush is not modelled.
`marshal` is `json.Marshal` on the payload, which fails on values JSON cannot express. -/
def Client.Send (marshal : JSON → Except String String) (c : Client) (event : Event) :
    Client × Option String :=
  if c.closed then
    (c, some "client is closed")
  else
    let c1 : Client := { c with Response := c.Response ++ ["event: " ++ event.Kind ++ "\n"] }
    let c2 : Client :=
      if event.ID ≠ "" then { c1 with Response := c1.Response ++ ["id: " ++ event.ID ++ "\n"] }
      else c1
    match event.Data with
    | some payload =>
      match marshal payload with
      | .error err => (c2, some err)
      | .ok data =>
        let c3 : Client := { c2 with Response := c2.Response ++ ["data: " ++ data ++ "\n"] }
        ({ c3 with Response := c3.Response ++ ["\n"] }, none)
    | none => ({ c2 with Response := c2.Response ++ ["\n"] }, none)

/-- The frame of an event whose payload, if any, serializes to `data`: the type line, the id
line for a non-empty id, the data line for a payload, and the blank line. -/
def frame (event : Event) (data : Option String) : List String :=
  ["event: " ++ event.Kind ++ "\n"] ++
  (if event.ID ≠ "" then ["id: " ++ event.ID ++ "\n"] else []) ++
  (match data with
   | some text => ["data: " ++ text ++ "\n"]
   | none => []) ++
  ["\n"]

/-- The hub runs its loop on the messages `msgs`, in order; `none` is a panic. -/
def Hub.runAll (h : Hub) (msgs : List HubMsg) : Option Hub :=
  msgs.foldlM Hub.Run h

/-- In the run of the hub on `msgs`, every `register` message carries a client that is not
closed when the hub receives it. -/
def RegistersOpen : Hub → List HubMsg → Prop
  | _, [] => True
  | h, msg :: rest =>
    (∀ client, msg = HubMsg.register client → (h.heap client).closed = false) ∧
    (∀ h1, h.Run msg = some h1 → RegistersOpen h1 rest)

/-! ## The push stream (`handleSSE`) and runs of the transport server -/

/-- A `handleSSE` invocation blocked in its loop: the client it created and the context of the
session it loaded. -/
structure Stream where
  client : ClientRef
  ctx : CtxRef
deriving DecidableEq, Repr

/-- The handler `handleSSE` up to its loop, for the value of the `X-Session-ID` header; `client`
is the pointer `sse.NewClient` returns. The second component is the stream that enters the
loop, `none` when the request was rejected. -/
def handleSSE (s : Server) (client : ClientRef) (sessionID : String) : Handled × Option Stream :=
  if sessionID = "" then
    ({ server := s, response := writeError 400 "Missing session ID", effects := [] }, none)
  else
    match s.sessions.lookup sessionID with
    | none =>
      ({ server := s, response := writeError 401 "Invalid session", effects := [] }, none)
    | some session =>
      ({ server :=
           { s with sessions := s.sessions.replace sessionID { session with Client := some client } },
         response := { status := 200, contentType := some "text/event-stream", body := none },
         effects :=
           [Effect.hubRegister client,
            Effect.clientSend client
              { Kind := "connected", Data := some (.obj [("sessionId", .str sessionID)]) }] },
       some { client := client, ctx := session.Context })

/-- The case of the `select` in the loop of `handleSSE` that fires. -/
inductive SelectCase where
  /-- The session context is done: `<-session.Context.Done()`. -/
  | sessionDone
  /-- The request context is done, the peer closed the connection: `<-r.Context().Done()`. -/
  | requestDone
  /-- The ticker fired: `<-ticker.C`. -/
  | tick
deriving DecidableEq, Repr

/-- One iteration of the loop of `handleSSE`: the effects of the case that fired and whether
the loop goes on (`false` when the handler returns). -/
def handleSSELoop (st : Stream) : SelectCase → List Effect × Bool
  | .sessionDone => ([], false)
  | .requestDone => ([Effect.hubUnregister st.client], false)
  | .tick => ([Effect.clientSend st.client { Kind := "ping" }], true)

/-- The events an effect list sends through `Client.Send`. -/
def sentEvents (effects : List Effect) : List Event :=
  effects.filterMap fun
    | .clientSend _ event => some event
    | _ => none

/-- The invariant of the hub: every entry is stored under the id of its client, no registered
client is closed, and on every client object the flag `closed` and the state of the channel
agree (as they do on the objects `NewClient` makes and `Close` changes). -/
def Hub.Sound (h : Hub) : Prop :=
  (∀ k r, h.clients.lookup k = some r → (h.heap r).ID = k) ∧
  (∀ k r, h.clients.lookup k = some r → (h.heap r).closed = false) ∧
  (∀ r, (h.heap r).Events.closed = (h.heap r).closed)

/-! ## Runs of the transport server

The handlers run in one goroutine per request, next to the goroutine of `cleanupSessions`. A run
is an interleaving of their steps; a step is one access of one of them to the state they share:
the `sessions` map, a field of a session object, a context, the hub. -/

theorem decodeStringField_kind {field cur : String} {v : JSON} {s : String}
    (h : decodeStringField field cur v = .ok s) : v = .str s ∨ (v = .null ∧ s = cur) := by
  cases v <;> simp [decodeStringField] at h <;> simp [h]

/-- A request object none of whose keys selects `id` leaves the `ID` field as it was. -/
theorem foldlM_decodeRpcField_ID (kvs : List (String × JSON)) (acc r : RpcReq)
    (h : kvs.foldlM decodeRpcField acc = .ok r)
    (hk : ∀ kv ∈ kvs, keyMatches "id" kv.1 = false) : r.ID = acc.ID := by
  induction kvs generalizing acc with
  | nil =>
    simp [List.foldlM, pure, Except.pure] at h
    rw [h]
  | cons kv rest ih =>
    rw [List.foldlM_cons] at h
    cases hstep : decodeRpcField acc kv with
    | error e => rw [hstep] at h; cases h
    | ok acc1 =>
      rw [hstep] at h
      have hrest := ih acc1 h (fun x hx => hk x (List.mem_cons_of_mem _ hx))
      have hkv := hk kv (List.mem_cons_self _ _)
      rw [hrest]
      unfold decodeRpcField at hstep
      split at hstep
      · cases hd : decodeStringField "jsonrpc" acc.JSONRPC kv.2 <;>
          rw [hd] at hstep <;> simp [Except.map] at hstep
        rw [← hstep]
      · split at hstep
        · cases hd : decodeStringField "method" acc.Method kv.2 <;>
            rw [hd] at hstep <;> simp [Except.map] at hstep
          rw [← hstep]
        · split at hstep
          · cases hstep; rfl
          · split at hstep
            · rename_i hid; rw [hkv] at hid; cases hid
            · cases hstep; rfl

/-- Keys are matched up to ASCII case and the two runes that fold onto `s` and `k`. -/
theorem keyMatches_examples :
    keyMatches "params" "PaRaMs" = true ∧
    keyMatches "params" "param\u017f" = true ∧
    keyMatches "jsonrpc" "j\u017fonrpc" = true ∧
    keyMatches "arguments" "argument\u017f" = true ∧
    keyMatches "id" "\u0131d" = false ∧
    keyMatches "id" "i\u0064" = true ∧
    keyMatches "method" "meth\u00f6d" = false := by
  decide

/-- A number out of the range of `float64` fails to decode into an `interface{}`, at any depth
of the value. -/
theorem decodeInterface_out_of_range (field : String) (n : Int)
    (h : float64Overflow ≤ n.natAbs) :
    decodeInterface field (.num n) = .error (.typeMismatch "number" field) ∧
    decodeInterface field (.arr [.obj [("x", .num n)]]) =
      .error (.typeMismatch "number" field) ∧
    unmarshalRpcReq (.obj [("method", .str "m"), ("id", .num n)]) =
      .error (.typeMismatch "number" "id") ∧
    unmarshalNamedReq (some (.obj [("name", .str "t"), ("arguments", .obj [("owner", .num n)])])) =
      .error (.typeMismatch "number" "arguments") := by
  have hn : decide (n.natAbs < float64Overflow) = false := by
    simp only [decide_eq_false_iff_not, not_lt]
    exact h
  have h1 : (JSON.num n).numbersFit = false := by
    simp only [JSON.numbersFit, hn]
  have h2 : (JSON.arr [.obj [("x", .num n)]]).numbersFit = false := by
    simp only [JSON.numbersFit, JSON.numbersFitList, JSON.numbersFitFields, hn,
      Bool.false_and]
  refine ⟨?_, ?_, ?_, ?_⟩
  · simp only [decodeInterface, h1]
    rfl
  · simp only [decodeInterface, h2]
    rfl
  · have hk : keyMatches "method" "id" = false ∧ keyMatches "jsonrpc" "id" = false ∧
        keyMatches "params" "id" = false ∧ keyMatches "id" "id" = true ∧
        keyMatches "jsonrpc" "method" = false ∧ keyMatches "method" "method" = true := by
      decide
    have hv : checkValid (.obj [("method", .str "m"), ("id", .num n)]) = .ok () := rfl
    simp only [unmarshalRpcReq, hv, List.foldlM, decodeRpcField, hk, decodeStringField,
      decodeInterface, h1, Except.map, bind, Except.bind]
    rfl
  · have hk : keyMatches "name" "name" = true ∧ keyMatches "name" "arguments" = false ∧
        keyMatches "arguments" "arguments" = true := by
      decide
    have hv : checkValid (.obj [("name", .str "t"), ("arguments", .obj [("owner", .num n)])]) =
        .ok () := rfl
    simp only [unmarshalNamedReq, hv, List.foldlM, decodeNamedField, hk, decodeStringField,
      decodeMapField, decodeInterface, h1, Except.map, bind, Except.bind]
    rfl

set_option exponentiation.threshold 2000 in
/-- The bound in closed form. -/
theorem float64Overflow_eq : float64Overflow = 2 ^ 1024 - 2 ^ 970 := by
  decide

/-- A request that `unmarshalRpcReq` decodes has passed the validity pass. -/
theorem checkValid_of_unmarshalRpcReq {request : JSON} {r : RpcReq}
    (h : unmarshalRpcReq request = .ok r) : checkValid request = .ok () := by
  unfold unmarshalRpcReq at h
  cases hv : checkValid request with
  | error e => rw [hv] at h; cases h
  | ok u => rfl

/-- The body `handleRPC` hands to the dispatcher, when that body decodes there. -/
theorem decodeBody_of_unmarshalRpcReq {request : JSON} {r : RpcReq}
    (h : unmarshalRpcReq request = .ok r) : decodeBody (some request) = some request := by
  simp only [decodeBody, checkValid_of_unmarshalRpcReq h]

/-- The id `unmarshalRpcReq` decodes from a request that carries none is `null`. -/
theorem unmarshalRpcReq_no_id (request : JSON) (r : RpcReq)
    (h : unmarshalRpcReq request = .ok r)
    (hk : ∀ kvs, request = .obj kvs → ∀ kv ∈ kvs, keyMatches "id" kv.1 = false) :
    r.ID = JSON.null := by
  have hv := checkValid_of_unmarshalRpcReq h
  unfold unmarshalRpcReq at h
  rw [hv] at h
  cases request with
  | null => simp at h; rw [← h]
  | obj kvs =>
    simp only at h
    exact foldlM_decodeRpcField_ID kvs {} r h (hk kvs rfl)
  | bool b => simp at h
  | num n => simp at h
  | str s => simp at h
  | arr xs => simp at h


/-! ## The dispatcher: unknown methods and the shape of every envelope -/

/-- C1: a request that decodes to an envelope whose method is none of the six known ones (the
empty method of a request without one included) makes `ProcessRPC` return no Go error, no
backend call and an envelope with `jsonrpc` "2.0", error code -32601 "Method not found", no
`result` field and the decoded id (null when the request has no id key); `handleRPC` sends
that envelope with status 200. -/
theorem ProcessRPC_unknown_method (s : Server) (d : Deps) (request : JSON) (rpcReq : RpcReq)
    (hdec : unmarshalRpcReq request = .ok rpcReq)
    (hm : rpcReq.Method ∉ ["resources/list", "resources/read", "tools/list", "tools/call",
      "prompts/list", "prompts/get"]) :
    ∃ resp : JSON,
      ProcessRPC s.mcpHandler d request = { ret := .ok resp, calls := [] } ∧
      resp.field? "jsonrpc" = some (.str "2.0") ∧
      (resp.field? "error").bind (fun e => e.field? "code") = some (.num (-32601)) ∧
      (resp.field? "error").bind (fun e => e.field? "message") = some (.str "Method not found") ∧
      resp.field? "result" = none ∧
      resp.field? "id" = some rpcReq.ID ∧
      ((∀ kvs, request = .obj kvs → ∀ kv ∈ kvs, keyMatches "id" kv.1 = false) →
        resp.field? "id" = some JSON.null) ∧
      (∀ (now : Time) (sessionID : String) (session : Session), sessionID ≠ "" →
        s.sessions.lookup sessionID = some session →
        (handleRPC s d now sessionID (some request)).response =
          { status := 200, contentType := some "application/json", body := some resp }) := by
  simp only [List.mem_cons, List.mem_singleton, List.not_mem_nil, or_false, not_or] at hm
  obtain ⟨h1, h2, h3, h4, h5, h6⟩ := hm
  have hP : ProcessRPC s.mcpHandler d request =
      { ret := .ok (.obj [("jsonrpc", .str "2.0"),
                          ("error", .obj [("code", .num (-32601)),
                                          ("message", .str "Method not found")]),
                          ("id", rpcReq.ID)]),
        calls := [] } := by
    simp only [ProcessRPC, hdec, h1, h2, h3, h4, h5, h6, if_false]
  refine ⟨_, hP, rfl, rfl, rfl, rfl, rfl, ?_, ?_⟩
  · intro hk
    rw [unmarshalRpcReq_no_id request rpcReq hdec hk]
    rfl
  · intro now sessionID session hne hs
    simp only [handleRPC, hne, if_false, hs, decodeBody_of_unmarshalRpcReq hdec, hP]

theorem ProcessRPC_unknown_method_witness :
    ∃ resp : JSON,
      ProcessRPC (⟨⟨true⟩, ∅, 0⟩ : Server).mcpHandler
          ⟨fun _ => .error "down", fun _ => .error "down", fun _ => ""⟩
          (.obj [("jsonrpc", .str "2.0"), ("method", .str "does-not-exist")]) =
        { ret := .ok resp, calls := [] } ∧
      resp.field? "id" = some JSON.null :=
  have h := ProcessRPC_unknown_method ⟨⟨true⟩, ∅, 0⟩
    ⟨fun _ => .error "down", fun _ => .error "down", fun _ => ""⟩
    (.obj [("jsonrpc", .str "2.0"), ("method", .str "does-not-exist")])
    { JSONRPC := "2.0", Method := "does-not-exist" } rfl (by decide)
  let ⟨resp, hp, _, _, _, _, _, hnull, _⟩ := h
  ⟨resp, hp, hnull (by
    intro kvs hk kv hkv
    cases hk
    revert kv
    decide)⟩


theorem EnvelopeShape_result (r id : JSON) :
    EnvelopeShape (.obj [("jsonrpc", .str "2.0"), ("result", r), ("id", id)]) id :=
  ⟨rfl, Or.inl ⟨rfl, rfl⟩, rfl⟩

theorem EnvelopeShape_error (e id : JSON) :
    EnvelopeShape (.obj [("jsonrpc", .str "2.0"), ("error", e), ("id", id)]) id :=
  ⟨rfl, Or.inr ⟨rfl, rfl⟩, rfl⟩

theorem handleListResources_shape (id resp : JSON)
    (h : (handleListResources id).ret = .ok resp) : EnvelopeShape resp id := by
  simp only [handleListResources, Except.ok.injEq] at h
  subst h
  exact EnvelopeShape_result _ _

theorem handleListTools_shape (hd : MCPHandler) (id resp : JSON)
    (h : (handleListTools hd id).ret = .ok resp) : EnvelopeShape resp id := by
  simp only [handleListTools, Except.ok.injEq] at h
  subst h
  exact EnvelopeShape_result _ _

theorem handleListPrompts_shape (id resp : JSON)
    (h : (handleListPrompts id).ret = .ok resp) : EnvelopeShape resp id := by
  simp only [handleListPrompts, Except.ok.injEq] at h
  subst h
  exact EnvelopeShape_result _ _

theorem handleReadResource_shape (d : Deps) (params : Option JSON) (id resp : JSON)
    (h : (handleReadResource d params id).ret = .ok resp) : EnvelopeShape resp id := by
  unfold handleReadResource at h
  split at h
  · cases h
  · split at h
    · simp only at h
      split at h
      · cases h
      · split at h
        · cases h
        · cases h; exact EnvelopeShape_result _ _
    · split at h
      · simp only at h
        split at h
        · cases h
        · split at h
          · cases h
          · cases h; exact EnvelopeShape_result _ _
      · cases h; exact EnvelopeShape_error _ _

theorem listRepositories_shape (d : Deps) (args : GoMap) (id resp : JSON)
    (h : (listRepositories d args id).ret = .ok resp) : EnvelopeShape resp id := by
  unfold listRepositories at h
  simp only at h
  split at h
  · cases h
  · split at h
    · cases h
    · cases h; exact EnvelopeShape_result _ _

theorem getRepository_shape (d : Deps) (args : GoMap) (id resp : JSON)
    (h : (getRepository d args id).ret = .ok resp) : EnvelopeShape resp id := by
  unfold getRepository at h
  split at h
  · cases h; exact EnvelopeShape_error _ _
  · split at h
    · cases h; exact EnvelopeShape_error _ _
    · simp only at h
      split at h
      · cases h
      · split at h
        · cases h
        · cases h; exact EnvelopeShape_result _ _

theorem createIssue_shape (d : Deps) (args : GoMap) (id resp : JSON)
    (h : (createIssue d args id).ret = .ok resp) : EnvelopeShape resp id := by
  unfold createIssue at h
  split at h
  · cases h; exact EnvelopeShape_error _ _
  · split at h
    · cases h; exact EnvelopeShape_error _ _
    · split at h
      · cases h; exact EnvelopeShape_error _ _
      · simp only at h
        split at h
        · cases h
        · split at h
          · cases h
          · cases h; exact EnvelopeShape_result _ _

theorem handleCallTool_shape (hd : MCPHandler) (d : Deps) (params : Option JSON) (id resp : JSON)
    (h : (handleCallTool hd d params id).ret = .ok resp) : EnvelopeShape resp id := by
  unfold handleCallTool at h
  split at h
  · cases h
  · split at h
    · exact listRepositories_shape d _ id resp h
    · split at h
      · exact getRepository_shape d _ id resp h
      · split at h
        · split at h
          · cases h; exact EnvelopeShape_error _ _
          · exact createIssue_shape d _ id resp h
        · cases h; exact EnvelopeShape_error _ _

theorem handleGetPrompt_shape (d : Deps) (params : Option JSON) (id resp : JSON)
    (h : (handleGetPrompt d params id).ret = .ok resp) : EnvelopeShape resp id := by
  unfold handleGetPrompt at h
  split at h
  · cases h
  · split at h
    · cases h; exact EnvelopeShape_result _ _
    · cases h; exact EnvelopeShape_error _ _

/-- C2: whatever the backend answers, every envelope `ProcessRPC` returns for a request that
decodes to `rpcReq` has `jsonrpc` "2.0", exactly one of the fields `result` and `error`, and
the decoded id, which is null when the request has no id key. -/
theorem ProcessRPC_envelope_shape (h : MCPHandler) (d : Deps) (request : JSON) (rpcReq : RpcReq)
    (resp : JSON) (hdec : unmarshalRpcReq request = .ok rpcReq)
    (hret : (ProcessRPC h d request).ret = .ok resp) :
    resp.field? "jsonrpc" = some (.str "2.0") ∧
    (((resp.field? "result").isSome = true ∧ resp.field? "error" = none) ∨
     (resp.field? "result" = none ∧ (resp.field? "error").isSome = true)) ∧
    resp.field? "id" = some rpcReq.ID ∧
    ((∀ kvs, request = .obj kvs → ∀ kv ∈ kvs, keyMatches "id" kv.1 = false) →
      resp.field? "id" = some JSON.null) := by
  have hshape : EnvelopeShape resp rpcReq.ID := by
    unfold ProcessRPC at hret
    rw [hdec] at hret
    simp only at hret
    split at hret
    · exact handleListResources_shape _ _ hret
    · split at hret
      · exact handleReadResource_shape d _ _ _ hret
      · split at hret
        · exact handleListTools_shape h _ _ hret
        · split at hret
          · exact handleCallTool_shape h d _ _ _ hret
          · split at hret
            · exact handleListPrompts_shape _ _ hret
            · split at hret
              · exact handleGetPrompt_shape d _ _ _ hret
              · cases hret; exact EnvelopeShape_error _ _
  refine ⟨hshape.1, hshape.2.1, hshape.2.2, ?_⟩
  intro hk
  rw [hshape.2.2, unmarshalRpcReq_no_id request rpcReq hdec hk]

theorem ProcessRPC_envelope_shape_witness :
    (ProcessRPC ⟨false⟩ ⟨fun _ => .ok (.arr []), fun _ => .ok "[]", fun _ => ""⟩
        (.obj [("jsonrpc", .str "2.0"), ("method", .str "tools/call"), ("id", .num 7),
          ("params", .obj [("name", .str "list_repositories")])])).ret =
      .ok (.obj [("jsonrpc", .str "2.0"),
        ("result", .obj [("content", textContent "[]")]),
        ("id", .num 7)]) ∧
    (JSON.obj [("jsonrpc", .str "2.0"),
        ("result", .obj [("content", textContent "[]")]),
        ("id", .num 7)]).field? "id" = some (JSON.num 7) :=
  ⟨rfl,
   (ProcessRPC_envelope_shape ⟨false⟩
    ⟨fun _ => .ok (.arr []), fun _ => .ok "[]", fun _ => ""⟩
    (.obj [("jsonrpc", .str "2.0"), ("method", .str "tools/call"), ("id", .num 7),
      ("params", .obj [("name", .str "list_repositories")])])
    { JSONRPC := "2.0", Method := "tools/call", ID := .num 7,
      Params := some (.obj [("name", .str "list_repositories")]) }
    (.obj [("jsonrpc", .str "2.0"),
        ("result", .obj [("content", textContent "[]")]),
        ("id", .num 7)])
    rfl rfl).2.2.1⟩

/-! ## Parameters that do not decode -/

/-- C3, the claim fails: a `tools/call` request without `params` makes `ProcessRPC` return a Go
error and no envelope, and `handleRPC` answers it with status 500. -/
theorem ProcessRPC_absent_params_counterexample :
    (ProcessRPC ⟨false⟩ ⟨fun _ => .ok (.arr []), fun _ => .ok "[]", fun _ => ""⟩
        (.obj [("jsonrpc", .str "2.0"), ("method", .str "tools/call"), ("id", .num 1)])).ret =
      .error (.decode "invalid call tool request" .unexpectedEnd) ∧
    (¬ ∃ resp, (ProcessRPC ⟨false⟩ ⟨fun _ => .ok (.arr []), fun _ => .ok "[]", fun _ => ""⟩
        (.obj [("jsonrpc", .str "2.0"), ("method", .str "tools/call"), ("id", .num 1)])).ret =
      .ok resp) ∧
    (handleRPC ⟨⟨false⟩, (∅ : AList fun _ : String => Session).insert "s1" ⟨"s1", none, 0, 0⟩, 1⟩
        ⟨fun _ => .ok (.arr []), fun _ => .ok "[]", fun _ => ""⟩ 5 "s1"
        (some (.obj [("jsonrpc", .str "2.0"), ("method", .str "tools/call"),
          ("id", .num 1)]))).response.status = 500 := by
  refine ⟨rfl, ?_, rfl⟩
  rintro ⟨resp, h⟩
  cases h

/-- C3 as amended: for a request whose method is `resources/read`, `tools/call` or
`prompts/get` and whose params do not decode into the handler's struct (absent params never
decode, nor does a value that is neither null nor an object), `ProcessRPC` returns the Go error
wrapping the decoding error, makes no backend call, and `handleRPC` answers with status 500
"RPC processing failed". -/
theorem ProcessRPC_undecodable_params (s : Server) (d : Deps) (request : JSON) (rpcReq : RpcReq)
    (err : UnmarshalError) (hdec : unmarshalRpcReq request = .ok rpcReq) :
    (rpcReq.Method = "resources/read" → unmarshalReadResourceReq rpcReq.Params = .error err →
      ProcessRPC s.mcpHandler d request =
        { ret := .error (.decode "invalid read resource request" err), calls := [] }) ∧
    (rpcReq.Method = "tools/call" → unmarshalNamedReq rpcReq.Params = .error err →
      ProcessRPC s.mcpHandler d request =
        { ret := .error (.decode "invalid call tool request" err), calls := [] }) ∧
    (rpcReq.Method = "prompts/get" → unmarshalNamedReq rpcReq.Params = .error err →
      ProcessRPC s.mcpHandler d request =
        { ret := .error (.decode "invalid get prompt request" err), calls := [] }) ∧
    (((rpcReq.Method = "resources/read" ∧ unmarshalReadResourceReq rpcReq.Params = .error err) ∨
      ((rpcReq.Method = "tools/call" ∨ rpcReq.Method = "prompts/get") ∧
        unmarshalNamedReq rpcReq.Params = .error err)) →
      ∀ (now : Time) (sessionID : String) (session : Session), sessionID ≠ "" →
        s.sessions.lookup sessionID = some session →
        (handleRPC s d now sessionID (some request)).response =
          writeError 500 "RPC processing failed") ∧
    unmarshalReadResourceReq none = .error .unexpectedEnd ∧
    unmarshalNamedReq none = .error .unexpectedEnd ∧
    (∀ v : JSON, v.kind ≠ "null" → v.kind ≠ "object" →
      (∃ e, unmarshalReadResourceReq (some v) = .error e) ∧
      (∃ e, unmarshalNamedReq (some v) = .error e)) := by
  have hread : rpcReq.Method = "resources/read" →
      unmarshalReadResourceReq rpcReq.Params = .error err →
      ProcessRPC s.mcpHandler d request =
        { ret := .error (.decode "invalid read resource request" err), calls := [] } := by
    intro hm hp
    simp [ProcessRPC, hdec, hm, handleReadResource, hp]
  have htool : rpcReq.Method = "tools/call" → unmarshalNamedReq rpcReq.Params = .error err →
      ProcessRPC s.mcpHandler d request =
        { ret := .error (.decode "invalid call tool request" err), calls := [] } := by
    intro hm hp
    simp [ProcessRPC, hdec, hm, handleCallTool, hp]
  have hprompt : rpcReq.Method = "prompts/get" → unmarshalNamedReq rpcReq.Params = .error err →
      ProcessRPC s.mcpHandler d request =
        { ret := .error (.decode "invalid get prompt request" err), calls := [] } := by
    intro hm hp
    simp [ProcessRPC, hdec, hm, handleGetPrompt, hp]
  refine ⟨hread, htool, hprompt, ?_, rfl, rfl, ?_⟩
  · intro hbad now sessionID session hne hs
    have hP : ∃ msg, ProcessRPC s.mcpHandler d request =
        { ret := .error (.decode msg err), calls := [] } := by
      rcases hbad with ⟨hm, hp⟩ | ⟨hm | hm, hp⟩
      · exact ⟨_, hread hm hp⟩
      · exact ⟨_, htool hm hp⟩
      · exact ⟨_, hprompt hm hp⟩
    obtain ⟨msg, hP⟩ := hP
    simp only [handleRPC, hne, if_false, hs, decodeBody_of_unmarshalRpcReq hdec, hP]
  · intro v h1 h2
    cases v <;> simp [JSON.kind] at h1 h2 <;>
      simp only [unmarshalReadResourceReq, unmarshalNamedReq] <;>
      split <;> exact ⟨⟨_, rfl⟩, ⟨_, rfl⟩⟩

theorem ProcessRPC_undecodable_params_witness :
    ProcessRPC (⟨⟨false⟩, ∅, 0⟩ : Server).mcpHandler
        ⟨fun _ => .ok (.arr []), fun _ => .ok "[]", fun _ => ""⟩
        (.obj [("method", .str "prompts/get"), ("params", .arr [])]) =
      { ret := .error (.decode "invalid get prompt request" (.typeMismatch "array" "")),
        calls := [] } :=
  (ProcessRPC_undecodable_params ⟨⟨false⟩, ∅, 0⟩
    ⟨fun _ => .ok (.arr []), fun _ => .ok "[]", fun _ => ""⟩
    (.obj [("method", .str "prompts/get"), ("params", .arr [])])
    { Method := "prompts/get", Params := some (.arr []) }
    (.typeMismatch "array" "") rfl).2.2.1 rfl rfl

/-! ## Missing required arguments -/

/-- C4, the claim fails: a `tools/call` naming `get_repository` whose `arguments` value is an
array holds no string for `owner`, yet the params do not decode and `ProcessRPC` returns a Go
error instead of the "owner is required" envelope; `handleRPC` answers with status 500. -/
theorem ProcessRPC_array_arguments_counterexample :
    (ProcessRPC ⟨false⟩ ⟨fun _ => .ok (.arr []), fun _ => .ok "[]", fun _ => ""⟩
        (.obj [("jsonrpc", .str "2.0"), ("method", .str "tools/call"), ("id", .num 1),
          ("params", .obj [("name", .str "get_repository"), ("arguments", .arr [])])])).ret =
      .error (.decode "invalid call tool request" (.typeMismatch "array" "arguments")) ∧
    (¬ ∃ resp, (ProcessRPC ⟨false⟩ ⟨fun _ => .ok (.arr []), fun _ => .ok "[]", fun _ => ""⟩
        (.obj [("jsonrpc", .str "2.0"), ("method", .str "tools/call"), ("id", .num 1),
          ("params", .obj [("name", .str "get_repository"), ("arguments", .arr [])])])).ret =
      .ok resp) ∧
    (handleRPC ⟨⟨false⟩, (∅ : AList fun _ : String => Session).insert "s1" ⟨"s1", none, 0, 0⟩, 1⟩
        ⟨fun _ => .ok (.arr []), fun _ => .ok "[]", fun _ => ""⟩ 5 "s1"
        (some (.obj [("jsonrpc", .str "2.0"), ("method", .str "tools/call"), ("id", .num 1),
          ("params", .obj [("name", .str "get_repository"),
            ("arguments", .arr [])])]))).response.status = 500 := by
  refine ⟨rfl, ?_, rfl⟩
  rintro ⟨resp, h⟩
  cases h

/-- C4 as amended: a `tools/call` whose params decode into the handler's struct, naming
`get_repository`, or `create_issue` with read-only off, and whose decoded arguments hold no
string for one of the required arguments is answered without Go error and without backend call
by an error envelope with code -32602 (not the method-not-found code -32601), the message
"<k> is required" for the first missing argument `k` in the order owner, repo, title, and
the request id. -/
theorem ProcessRPC_missing_required_argument (h : MCPHandler) (d : Deps) (request : JSON)
    (rpcReq : RpcReq) (req : NamedReq) (k : String)
    (hdec : unmarshalRpcReq request = .ok rpcReq) (hm : rpcReq.Method = "tools/call")
    (hp : unmarshalNamedReq rpcReq.Params = .ok req)
    (hn : req.Name = "get_repository" ∨ (req.Name = "create_issue" ∧ h.readOnly = false))
    (hk : firstMissing (requiredArgs req.Name) req.Arguments = some k) :
    ∃ resp : JSON,
      ProcessRPC h d request = { ret := .ok resp, calls := [] } ∧
      IsErrorEnvelope resp (-32602) (k ++ " is required") rpcReq.ID ∧
      k ∈ ["owner", "repo", "title"] ∧
      (-32602 : Int) ≠ -32601 := by
  have hP : ProcessRPC h d request = handleCallTool h d rpcReq.Params rpcReq.ID := by
    simp [ProcessRPC, hdec, hm]
  rw [hP]
  unfold handleCallTool
  rw [hp]
  rcases hn with hn | ⟨hn, hro⟩
  · simp only [hn, requiredArgs, if_true, firstMissing, List.find?] at hk
    simp only [hn, String.reduceEq, if_false, if_true, getRepository]
    cases ho : asString (req.Arguments.get "owner") with
    | none =>
      simp [ho] at hk
      subst hk
      exact ⟨_, rfl, ⟨rfl, rfl, rfl, rfl, rfl⟩, by decide, by decide⟩
    | some owner =>
      cases hr : asString (req.Arguments.get "repo") with
      | none =>
        simp [ho, hr] at hk
        subst hk
        exact ⟨_, rfl, ⟨rfl, rfl, rfl, rfl, rfl⟩, by decide, by decide⟩
      | some repo => simp [ho, hr] at hk
  · simp only [hn, requiredArgs, String.reduceEq, if_false, if_true, firstMissing,
      List.find?] at hk
    simp only [hn, String.reduceEq, if_false, if_true, hro, createIssue, Bool.false_eq_true]
    cases ho : asString (req.Arguments.get "owner") with
    | none =>
      simp [ho] at hk
      subst hk
      exact ⟨_, rfl, ⟨rfl, rfl, rfl, rfl, rfl⟩, by decide, by decide⟩
    | some owner =>
      cases hr : asString (req.Arguments.get "repo") with
      | none =>
        simp [ho, hr] at hk
        subst hk
        exact ⟨_, rfl, ⟨rfl, rfl, rfl, rfl, rfl⟩, by decide, by decide⟩
      | some repo =>
        cases ht : asString (req.Arguments.get "title") with
        | none =>
          simp [ho, hr, ht] at hk
          subst hk
          exact ⟨_, rfl, ⟨rfl, rfl, rfl, rfl, rfl⟩, by decide, by decide⟩
        | some title => simp [ho, hr, ht] at hk

theorem ProcessRPC_missing_required_argument_witness :
    ∃ resp : JSON,
      ProcessRPC ⟨false⟩ ⟨fun _ => .ok (.arr []), fun _ => .ok "[]", fun _ => ""⟩
          (.obj [("method", .str "tools/call"), ("id", .str "a"),
            ("params", .obj [("name", .str "create_issue"),
              ("arguments", .obj [("owner", .str "o"), ("repo", .num 3)])])]) =
        { ret := .ok resp, calls := [] } ∧
      IsErrorEnvelope resp (-32602) ("repo" ++ " is required") (.str "a") :=
  let ⟨resp, h1, h2, _⟩ := ProcessRPC_missing_required_argument ⟨false⟩
    ⟨fun _ => .ok (.arr []), fun _ => .ok "[]", fun _ => ""⟩
    (.obj [("method", .str "tools/call"), ("id", .str "a"),
      ("params", .obj [("name", .str "create_issue"),
        ("arguments", .obj [("owner", .str "o"), ("repo", .num 3)])])])
    { Method := "tools/call", ID := .str "a",
      Params := some (.obj [("name", .str "create_issue"),
        ("arguments", .obj [("owner", .str "o"), ("repo", .num 3)])]) }
    { Name := "create_issue", Arguments := [("repo", .num 3), ("owner", .str "o")] }
    "repo" rfl rfl rfl (Or.inr ⟨rfl, rfl⟩) rfl
  ⟨resp, h1, h2⟩

/-! ## Discovery and invocation of tools -/

/-- The names advertised by `tools/list`, for either value of the read-only flag. -/
theorem toolNames_handleListTools (h : MCPHandler) (id : JSON) :
    toolNames (handleListTools h id) =
      if h.readOnly then ["list_repositories", "get_repository"]
      else ["list_repositories", "get_repository", "create_issue"] := by
  cases h with
  | mk ro => cases ro <;> rfl

/-- C5, the claim fails: under read-only neither `nope` nor `create_issue` is advertised by
`tools/list`, yet a `tools/call` naming one of them with an `arguments` value that is an array
or a string is not answered by the -32602 envelope: the params do not decode and `ProcessRPC`
returns a Go error. -/
theorem tools_call_undecodable_arguments_counterexample :
    "nope" ∉ toolNames (ProcessRPC ⟨true⟩
        ⟨fun _ => .ok (.arr []), fun _ => .ok "[]", fun _ => ""⟩
        (.obj [("jsonrpc", .str "2.0"), ("method", .str "tools/list"), ("id", .num 1)])) ∧
    (ProcessRPC ⟨true⟩ ⟨fun _ => .ok (.arr []), fun _ => .ok "[]", fun _ => ""⟩
        (.obj [("jsonrpc", .str "2.0"), ("method", .str "tools/call"), ("id", .num 2),
          ("params", .obj [("name", .str "nope"), ("arguments", .arr [])])])).ret =
      .error (.decode "invalid call tool request" (.typeMismatch "array" "arguments")) ∧
    "create_issue" ∉ toolNames (ProcessRPC ⟨true⟩
        ⟨fun _ => .ok (.arr []), fun _ => .ok "[]", fun _ => ""⟩
        (.obj [("jsonrpc", .str "2.0"), ("method", .str "tools/list"), ("id", .num 1)])) ∧
    (ProcessRPC ⟨true⟩ ⟨fun _ => .ok (.arr []), fun _ => .ok "[]", fun _ => ""⟩
        (.obj [("jsonrpc", .str "2.0"), ("method", .str "tools/call"), ("id", .num 3),
          ("params", .obj [("name", .str "create_issue"), ("arguments", .str "x")])])).ret =
      .error (.decode "invalid call tool request" (.typeMismatch "string" "arguments")) := by
  refine ⟨by decide, rfl, by decide, rfl⟩

/-- C5 as amended: for either value of the read-only flag and every tool name `n`, `n` is
advertised by `tools/list` exactly when it is `list_repositories`, `get_repository`, or
`create_issue` with read-only off, and for exactly these names a `tools/call` whose params
decode and name `n` runs the implementation of that tool on the decoded arguments; for every
other name and every decoded arguments map, the call is answered without backend call by an
error envelope with code -32602, whose message is "Tool not available in read-only mode" for
`create_issue` and "Unknown tool: n" otherwise. -/
theorem tools_list_matches_tools_call (h : MCPHandler) (d : Deps) (listRequest callRequest : JSON)
    (listReq callReq : RpcReq) (n : String) (args : GoMap)
    (hl : unmarshalRpcReq listRequest = .ok listReq) (hlm : listReq.Method = "tools/list")
    (hc : unmarshalRpcReq callRequest = .ok callReq) (hcm : callReq.Method = "tools/call")
    (hp : unmarshalNamedReq callReq.Params = .ok { Name := n, Arguments := args }) :
    (n ∈ toolNames (ProcessRPC h d listRequest) ↔
      (n = "list_repositories" ∨ n = "get_repository" ∨
        (n = "create_issue" ∧ h.readOnly = false))) ∧
    (n = "list_repositories" →
      ProcessRPC h d callRequest = listRepositories d args callReq.ID) ∧
    (n = "get_repository" →
      ProcessRPC h d callRequest = getRepository d args callReq.ID) ∧
    (n = "create_issue" → h.readOnly = false →
      ProcessRPC h d callRequest = createIssue d args callReq.ID) ∧
    (n ∉ toolNames (ProcessRPC h d listRequest) →
      ∃ resp : JSON,
        ProcessRPC h d callRequest = { ret := .ok resp, calls := [] } ∧
        IsErrorEnvelope resp (-32602)
          (if n = "create_issue" then "Tool not available in read-only mode"
           else "Unknown tool: " ++ n) callReq.ID) ∧
    ("create_issue" ∈ toolNames (ProcessRPC h d listRequest) ↔ h.readOnly = false) := by
  have hL : ProcessRPC h d listRequest = handleListTools h listReq.ID := by
    simp [ProcessRPC, hl, hlm]
  have hC : ProcessRPC h d callRequest = handleCallTool h d callReq.Params callReq.ID := by
    simp [ProcessRPC, hc, hcm]
  have hnames : ∀ m : String, m ∈ toolNames (ProcessRPC h d listRequest) ↔
      (m = "list_repositories" ∨ m = "get_repository" ∨
        (m = "create_issue" ∧ h.readOnly = false)) := by
    intro m
    rw [hL, toolNames_handleListTools]
    cases hro : h.readOnly <;> simp
  refine ⟨hnames n, ?_, ?_, ?_, ?_, ?_⟩
  · intro hn
    simp [hC, handleCallTool, hp, hn]
  · intro hn
    simp [hC, handleCallTool, hp, hn]
  · intro hn hro
    simp [hC, handleCallTool, hp, hn, hro]
  · intro hnot
    rw [hnames n] at hnot
    simp only [not_or, not_and] at hnot
    obtain ⟨h1, h2, h3⟩ := hnot
    rw [hC]
    unfold handleCallTool
    rw [hp]
    simp only [h1, h2, if_false]
    by_cases h4 : n = "create_issue"
    · have hro : h.readOnly = true := by
        cases hr : h.readOnly
        · exact absurd hr (h3 h4)
        · rfl
      simp only [h4, if_true, hro]
      exact ⟨_, rfl, rfl, rfl, rfl, rfl, rfl⟩
    · simp only [h4, if_false]
      exact ⟨_, rfl, rfl, rfl, rfl, rfl, rfl⟩
  · rw [hnames "create_issue"]
    simp

theorem tools_list_matches_tools_call_witness :
    ∃ resp : JSON,
      ProcessRPC ⟨true⟩ ⟨fun _ => .ok (.arr []), fun _ => .ok "[]", fun _ => ""⟩
          (.obj [("method", .str "tools/call"), ("id", .num 2),
            ("params", .obj [("name", .str "create_issue")])]) =
        { ret := .ok resp, calls := [] } ∧
      IsErrorEnvelope resp (-32602)
        (if "create_issue" = "create_issue" then "Tool not available in read-only mode"
         else "Unknown tool: " ++ "create_issue") (.num 2) :=
  (tools_list_matches_tools_call ⟨true⟩
    ⟨fun _ => .ok (.arr []), fun _ => .ok "[]", fun _ => ""⟩
    (.obj [("method", .str "tools/list")])
    (.obj [("method", .str "tools/call"), ("id", .num 2),
      ("params", .obj [("name", .str "create_issue")])])
    { Method := "tools/list" }
    { Method := "tools/call", ID := .num 2,
      Params := some (.obj [("name", .str "create_issue")]) }
    "create_issue" [] rfl rfl rfl rfl rfl).2.2.2.2.1 (by decide)

/-! ## Call submission without a valid session -/

/-- C6: a call submitted with an empty session-id header is rejected with status 400
"Missing session ID"; one submitted with a non-empty id under which no session is stored is
rejected with status 401 "Invalid session"; in both cases the dispatcher is not invoked (no
effect at all is produced) and the server, its registry included, is left as it was. -/
theorem handleRPC_rejects_without_session (s : Server) (d : Deps) (now : Time)
    (sessionID : String) (body : Option JSON) :
    (sessionID = "" →
      handleRPC s d now sessionID body =
        { server := s, response := writeError 400 "Missing session ID", effects := [] }) ∧
    (sessionID ≠ "" → s.sessions.lookup sessionID = none →
      handleRPC s d now sessionID body =
        { server := s, response := writeError 401 "Invalid session", effects := [] }) ∧
    (writeError 400 "Missing session ID").status = 400 ∧
    (writeError 401 "Invalid session").status = 401 := by
  refine ⟨?_, ?_, rfl, rfl⟩
  · intro h0
    simp [handleRPC, h0]
  · intro hne hnone
    simp [handleRPC, hne, hnone]

theorem handleRPC_rejects_without_session_witness :
    handleRPC ⟨⟨false⟩, (∅ : AList fun _ : String => Session).insert "s1" ⟨"s1", none, 0, 0⟩, 1⟩
        ⟨fun _ => .ok (.arr []), fun _ => .ok "[]", fun _ => ""⟩ 9 "s2"
        (some (.obj [("method", .str "tools/list")])) =
      { server := ⟨⟨false⟩, (∅ : AList fun _ : String => Session).insert "s1" ⟨"s1", none, 0, 0⟩, 1⟩,
        response := writeError 401 "Invalid session", effects := [] } :=
  (handleRPC_rejects_without_session
    ⟨⟨false⟩, (∅ : AList fun _ : String => Session).insert "s1" ⟨"s1", none, 0, 0⟩, 1⟩
    ⟨fun _ => .ok (.arr []), fun _ => .ok "[]", fun _ => ""⟩ 9 "s2"
    (some (.obj [("method", .str "tools/list")]))).2.1 (by decide) (by decide)

/-! ## Teardown and the expiry sweep -/

theorem erase_of_lookup_eq_none (m : AList fun _ : String => Session) (k : String)
    (h : m.lookup k = none) : m.erase k = m := by
  apply AList.ext
  rw [AList.lookup_eq_none, AList.mem_keys] at h
  exact List.kerase_of_not_mem_keys h

/-- C7: teardown with a non-empty session id answers 204 without body, removes the session stored
under the id and leaves every other entry of the registry as it was; if a session was stored,
its cancel function is invoked and its event client, if any, is unregistered from the hub, and
nothing else happens; a second teardown with the same id changes nothing and has no effect; a
call submitted afterwards with the id is rejected as invalid session. -/
theorem handleDisconnect_teardown (s : Server) (d : Deps) (sessionID : String)
    (hne : sessionID ≠ "") :
    (handleDisconnect s sessionID).response = { status := 204, contentType := none, body := none } ∧
    (handleDisconnect s sessionID).server.sessions.lookup sessionID = none ∧
    (∀ k, k ≠ sessionID →
      (handleDisconnect s sessionID).server.sessions.lookup k = s.sessions.lookup k) ∧
    (handleDisconnect s sessionID).server.mcpHandler = s.mcpHandler ∧
    (handleDisconnect s sessionID).server.nextCtx = s.nextCtx ∧
    (∀ sess, s.sessions.lookup sessionID = some sess →
      (handleDisconnect s sessionID).effects = teardownEffects sess) ∧
    (s.sessions.lookup sessionID = none →
      (handleDisconnect s sessionID).effects = [] ∧ (handleDisconnect s sessionID).server = s) ∧
    handleDisconnect (handleDisconnect s sessionID).server sessionID =
      { server := (handleDisconnect s sessionID).server,
        response := { status := 204, contentType := none, body := none },
        effects := [] } ∧
    (∀ (now : Time) (body : Option JSON),
      handleRPC (handleDisconnect s sessionID).server d now sessionID body =
        { server := (handleDisconnect s sessionID).server,
          response := writeError 401 "Invalid session", effects := [] }) := by
  have hsrv : (handleDisconnect s sessionID).server =
      { s with sessions := s.sessions.erase sessionID } := by
    unfold handleDisconnect
    rw [if_neg hne]
    cases s.sessions.lookup sessionID <;> rfl
  have hgone : (handleDisconnect s sessionID).server.sessions.lookup sessionID = none := by
    rw [hsrv]
    exact AList.lookup_erase _ _
  refine ⟨?_, hgone, ?_, ?_, ?_, ?_, ?_, ?_, ?_⟩
  · unfold handleDisconnect
    rw [if_neg hne]
    cases s.sessions.lookup sessionID <;> rfl
  · intro k hk
    rw [hsrv]
    exact AList.lookup_erase_ne hk
  · rw [hsrv]
  · rw [hsrv]
  · intro sess hs
    unfold handleDisconnect
    rw [if_neg hne, hs]
    simp [teardownEffects]
  · intro hnone
    constructor
    · unfold handleDisconnect
      rw [if_neg hne, hnone]
    · rw [hsrv, erase_of_lookup_eq_none _ _ hnone]
  · generalize (handleDisconnect s sessionID).server = s1 at hgone
    unfold handleDisconnect
    rw [if_neg hne, hgone]
    simp only [erase_of_lookup_eq_none _ _ hgone]
  · intro now body
    generalize (handleDisconnect s sessionID).server = s1 at hgone
    simp [handleRPC, hne, hgone]

theorem handleDisconnect_teardown_witness :
    (handleDisconnect
      ⟨⟨false⟩, (∅ : AList fun _ : String => Session).insert "s1" ⟨"s1", some 4, 0, 0⟩, 1⟩
      "s1").effects = teardownEffects ⟨"s1", some 4, 0, 0⟩ :=
  (handleDisconnect_teardown
    ⟨⟨false⟩, (∅ : AList fun _ : String => Session).insert "s1" ⟨"s1", some 4, 0, 0⟩, 1⟩
    ⟨fun _ => .ok (.arr []), fun _ => .ok "[]", fun _ => ""⟩ "s1" (by decide)).2.2.2.2.2.1
    ⟨"s1", some 4, 0, 0⟩ (by decide)

/-- The state after sweeping the entries `l` into the accumulator `acc`. -/
theorem foldl_sweepSession (now : Time) (l : List (Sigma fun _ : String => Session))
    (acc : Server × List Effect) :
    (l.foldl (sweepSession now) acc).1.mcpHandler = acc.1.mcpHandler ∧
    (l.foldl (sweepSession now) acc).1.nextCtx = acc.1.nextCtx ∧
    (l.foldl (sweepSession now) acc).2 =
      acc.2 ++ (l.filter (fun e => decide (idle now e.2))).flatMap (fun e => teardownEffects e.2) ∧
    (∀ k, (∃ e ∈ l, e.1 = k ∧ idle now e.2) →
      (l.foldl (sweepSession now) acc).1.sessions.lookup k = none) ∧
    (∀ k, (¬ ∃ e ∈ l, e.1 = k ∧ idle now e.2) →
      (l.foldl (sweepSession now) acc).1.sessions.lookup k = acc.1.sessions.lookup k) := by
  induction l generalizing acc with
  | nil => simp
  | cons x rest ih =>
    rw [List.foldl_cons]
    by_cases hx : idle now x.2
    · obtain ⟨ih1, ih2, ih3, ih4, ih5⟩ := ih (sweepSession now acc x)
      have hstep : sweepSession now acc x =
          ({ acc.1 with sessions := acc.1.sessions.erase x.1 }, acc.2 ++ teardownEffects x.2) := by
        have hx1 : now - x.2.LastActive > 30 * minute := hx
        simp [sweepSession, hx1, teardownEffects]
      refine ⟨?_, ?_, ?_, ?_, ?_⟩
      · rw [ih1, hstep]
      · rw [ih2, hstep]
      · rw [ih3, hstep]
        simp [List.filter_cons, hx, List.append_assoc]
      · rintro k ⟨e, he, hk, hidle⟩
        by_cases hrest : ∃ e ∈ rest, e.1 = k ∧ idle now e.2
        · exact ih4 k hrest
        · rw [ih5 k hrest, hstep]
          rcases List.mem_cons.mp he with rfl | he1
          · rw [← hk]
            exact AList.lookup_erase _ _
          · exact absurd ⟨e, he1, hk, hidle⟩ hrest
      · intro k hk
        have hrest : ¬ ∃ e ∈ rest, e.1 = k ∧ idle now e.2 := by
          rintro ⟨e, he, h1, h2⟩
          exact hk ⟨e, List.mem_cons_of_mem _ he, h1, h2⟩
        have hne : k ≠ x.1 := by
          intro h
          exact hk ⟨x, List.mem_cons_self _ _, h.symm, hx⟩
        rw [ih5 k hrest, hstep]
        exact AList.lookup_erase_ne hne
    · have hstep : sweepSession now acc x = acc := by
        have hx1 : ¬ now - x.2.LastActive > 30 * minute := hx
        simp only [sweepSession, hx1, if_false]
      rw [hstep]
      obtain ⟨ih1, ih2, ih3, ih4, ih5⟩ := ih acc
      refine ⟨ih1, ih2, ?_, ?_, ?_⟩
      · rw [ih3]
        simp [List.filter_cons, hx]
      · rintro k ⟨e, he, hk, hidle⟩
        apply ih4
        rcases List.mem_cons.mp he with rfl | he1
        · exact absurd hidle hx
        · exact ⟨e, he1, hk, hidle⟩
      · intro k hk
        apply ih5
        rintro ⟨e, he, h1, h2⟩
        exact hk ⟨e, List.mem_cons_of_mem _ he, h1, h2⟩

/-- C8: one pass of the expiry sweep at time `now` removes exactly the sessions with
`now - lastActive > 30 minutes`, performing for each, and for no other session, the teardown
of delete (cancel invoked, event client unregistered); every session with
`now - lastActive <= 30 minutes` stays stored unchanged, also at exactly 30 minutes; a call
submitted afterwards with the id of a removed session is rejected as invalid session. -/
theorem cleanupSessions_sweep (s : Server) (d : Deps) (now : Time) :
    (∀ k sess, s.sessions.lookup k = some sess → now - sess.LastActive > 30 * minute →
      (cleanupSessions s now).1.sessions.lookup k = none) ∧
    (∀ k sess, s.sessions.lookup k = some sess → now - sess.LastActive ≤ 30 * minute →
      (cleanupSessions s now).1.sessions.lookup k = some sess) ∧
    (∀ k sess, s.sessions.lookup k = some sess → now - sess.LastActive = 30 * minute →
      (cleanupSessions s now).1.sessions.lookup k = some sess) ∧
    (∀ k, s.sessions.lookup k = none → (cleanupSessions s now).1.sessions.lookup k = none) ∧
    (cleanupSessions s now).2 =
      (s.sessions.entries.filter (fun e => decide (idle now e.2))).flatMap
        (fun e => teardownEffects e.2) ∧
    (cleanupSessions s now).1.mcpHandler = s.mcpHandler ∧
    (cleanupSessions s now).1.nextCtx = s.nextCtx ∧
    (∀ k sess, k ≠ "" → s.sessions.lookup k = some sess → now - sess.LastActive > 30 * minute →
      ∀ (later : Time) (body : Option JSON),
        handleRPC (cleanupSessions s now).1 d later k body =
          { server := (cleanupSessions s now).1, response := writeError 401 "Invalid session",
            effects := [] }) := by
  obtain ⟨h1, h2, h3, h4, h5⟩ := foldl_sweepSession now s.sessions.entries (s, [])
  have hgone : ∀ k sess, s.sessions.lookup k = some sess → now - sess.LastActive > 30 * minute →
      (cleanupSessions s now).1.sessions.lookup k = none := by
    intro k sess hs hi
    apply h4
    exact ⟨⟨k, sess⟩, AList.mem_lookup_iff.mp hs, rfl, hi⟩
  have hkept : ∀ k sess, s.sessions.lookup k = some sess → now - sess.LastActive ≤ 30 * minute →
      (cleanupSessions s now).1.sessions.lookup k = some sess := by
    intro k sess hs hi
    have := h5 k (by
      rintro ⟨e, he, hk, hidle⟩
      obtain ⟨k1, sess1⟩ := e
      simp only at hk; subst hk
      have hl := AList.mem_lookup_iff.mpr he
      rw [hs] at hl
      cases hl
      exact absurd hidle (not_lt.mpr hi))
    unfold cleanupSessions
    rw [this, hs]
  refine ⟨hgone, hkept, ?_, ?_, ?_, h1, h2, ?_⟩
  · intro k sess hs he
    exact hkept k sess hs (le_of_eq he)
  · intro k hs
    have := h5 k (by
      rintro ⟨e, he, hk, _⟩
      obtain ⟨k1, sess1⟩ := e
      simp only at hk; subst hk
      have hl := AList.mem_lookup_iff.mpr he
      rw [hs] at hl
      cases hl)
    unfold cleanupSessions
    rw [this, hs]
  · unfold cleanupSessions
    rw [h3]
    simp
  · intro k sess hne hs hi later body
    have hg := hgone k sess hs hi
    generalize (cleanupSessions s now).1 = s1 at hg
    simp [handleRPC, hne, hg]

theorem cleanupSessions_sweep_witness :
    (cleanupSessions
      ⟨⟨false⟩, ((∅ : AList fun _ : String => Session).insert "old"
        ⟨"old", some 4, 0, 0⟩).insert "edge" ⟨"edge", none, 1, 1⟩, 2⟩
      (30 * minute + 1)).1.sessions.lookup "old" = none ∧
    (cleanupSessions
      ⟨⟨false⟩, ((∅ : AList fun _ : String => Session).insert "old"
        ⟨"old", some 4, 0, 0⟩).insert "edge" ⟨"edge", none, 1, 1⟩, 2⟩
      (30 * minute + 1)).1.sessions.lookup "edge" = some ⟨"edge", none, 1, 1⟩ :=
  ⟨(cleanupSessions_sweep
      ⟨⟨false⟩, ((∅ : AList fun _ : String => Session).insert "old"
        ⟨"old", some 4, 0, 0⟩).insert "edge" ⟨"edge", none, 1, 1⟩, 2⟩
      ⟨fun _ => .ok (.arr []), fun _ => .ok "[]", fun _ => ""⟩ (30 * minute + 1)).1
      "old" ⟨"old", some 4, 0, 0⟩ (by decide) (by decide),
   (cleanupSessions_sweep
      ⟨⟨false⟩, ((∅ : AList fun _ : String => Session).insert "old"
        ⟨"old", some 4, 0, 0⟩).insert "edge" ⟨"edge", none, 1, 1⟩, 2⟩
      ⟨fun _ => .ok (.arr []), fun _ => .ok "[]", fun _ => ""⟩ (30 * minute + 1)).2.2.1
      "edge" ⟨"edge", none, 1, 1⟩ (by decide) (by decide)⟩

/-! ## Session ids -/

/-- C9, the code at the failing input: a session is established on the empty registry and a
second one while the clock still shows the same reading. Both get the id
"1700000000000000000-1700000000": the id of the second establishment is already a key of the
registry, the second session (context 1) replaces the first (context 0), whose cancel function
was never invoked, and the registry holds one session instead of two. -/
theorem handleConnect_same_clock_reuses_id :
    generateSessionID 1700000000000000000 1700000000000000000 =
      "1700000000000000000-1700000000" ∧
    (handleConnect ⟨⟨false⟩, ∅, 0⟩ 1700000000000000000 1700000000000000000 1700000000000000000
      (some ("a", "1"))).server.sessions.lookup "1700000000000000000-1700000000" =
        some ⟨"1700000000000000000-1700000000", none, 0, 1700000000000000000⟩ ∧
    (handleConnect
      (handleConnect ⟨⟨false⟩, ∅, 0⟩ 1700000000000000000 1700000000000000000 1700000000000000000
        (some ("a", "1"))).server
      1700000000000000000 1700000000000000000 1700000000000000000
      (some ("b", "1"))).server.sessions.lookup "1700000000000000000-1700000000" =
        some ⟨"1700000000000000000-1700000000", none, 1, 1700000000000000000⟩ ∧
    (handleConnect
      (handleConnect ⟨⟨false⟩, ∅, 0⟩ 1700000000000000000 1700000000000000000 1700000000000000000
        (some ("a", "1"))).server
      1700000000000000000 1700000000000000000 1700000000000000000
      (some ("b", "1"))).server.sessions.keys = ["1700000000000000000-1700000000"] ∧
    (handleConnect
      (handleConnect ⟨⟨false⟩, ∅, 0⟩ 1700000000000000000 1700000000000000000 1700000000000000000
        (some ("a", "1"))).server
      1700000000000000000 1700000000000000000 1700000000000000000
      (some ("b", "1"))).effects.length = 0 := by
  refine ⟨by decide, by decide, by decide, by decide, by decide⟩

/-! ## The hub: one broadcast -/

theorem Hub.broadcastTo_some_of_room (e : Event) (h : Hub) (x : Sigma fun _ : String => ClientRef)
    (hopen : (h.heap x.2).Events.closed = false) (hroom : (h.heap x.2).hasRoom) :
    Hub.broadcastTo e (some h) x =
      some { h with heap := Function.update h.heap x.2 ((h.heap x.2).enqueue e) } := by
  have hr : (h.heap x.2).Events.buf.length < (h.heap x.2).Events.cap := hroom
  simp [Hub.broadcastTo, Chan.trySend, hopen, hr, Client.enqueue]

theorem Hub.broadcastTo_some_of_full (e : Event) (h : Hub) (x : Sigma fun _ : String => ClientRef)
    (hopen : (h.heap x.2).Events.closed = false) (hfull : ¬ (h.heap x.2).hasRoom) :
    Hub.broadcastTo e (some h) x = some { h with spawned := h.spawned ++ [x.2] } := by
  have hr : ¬ (h.heap x.2).Events.buf.length < (h.heap x.2).Events.cap := hfull
  simp [Hub.broadcastTo, Chan.trySend, hopen, hr]

/-- The hub after the broadcast loop has visited the entries `l`, whose clients are pairwise
different objects with open channels. -/
theorem foldl_broadcastTo (e : Event) (l : List (Sigma fun _ : String => ClientRef)) (h : Hub)
    (hnd : (l.map Sigma.snd).Nodup)
    (hopen : ∀ x ∈ l, (h.heap x.2).Events.closed = false) :
    ∃ h1 : Hub, l.foldl (Hub.broadcastTo e) (some h) = some h1 ∧
      h1.clients = h.clients ∧
      h1.spawned = h.spawned ++
        (l.filter (fun x => decide (¬ (h.heap x.2).hasRoom))).map Sigma.snd ∧
      (∀ r, r ∈ l.map Sigma.snd → (h.heap r).hasRoom → h1.heap r = (h.heap r).enqueue e) ∧
      (∀ r, r ∈ l.map Sigma.snd → ¬ (h.heap r).hasRoom → h1.heap r = h.heap r) ∧
      (∀ r, r ∉ l.map Sigma.snd → h1.heap r = h.heap r) := by
  induction l generalizing h with
  | nil => exact ⟨h, rfl, rfl, by simp, by simp, by simp, by simp⟩
  | cons x rest ih =>
    rw [List.map_cons, List.nodup_cons] at hnd
    obtain ⟨hx, hnd1⟩ := hnd
    have hxo := hopen x (List.mem_cons_self _ _)
    rw [List.foldl_cons]
    by_cases hroom : (h.heap x.2).hasRoom
    · rw [Hub.broadcastTo_some_of_room e h x hxo hroom]
      have hsame : ∀ y ∈ rest, Function.update h.heap x.2 ((h.heap x.2).enqueue e) y.2 =
          h.heap y.2 := by
        intro y hy
        apply Function.update_noteq
        rintro heq
        exact hx (heq ▸ List.mem_map_of_mem Sigma.snd hy)
      obtain ⟨h1, hf, hc, hs, ha, hb, hn⟩ :=
        ih { h with heap := Function.update h.heap x.2 ((h.heap x.2).enqueue e) } hnd1
          (by
            intro y hy
            show (Function.update h.heap x.2 ((h.heap x.2).enqueue e) y.2).Events.closed = false
            rw [hsame y hy]
            exact hopen y (List.mem_cons_of_mem _ hy))
      have hsame1 : ∀ r, r ∈ rest.map Sigma.snd →
          Function.update h.heap x.2 ((h.heap x.2).enqueue e) r = h.heap r := by
        intro r hr
        obtain ⟨y, hy, rfl⟩ := List.mem_map.mp hr
        exact hsame y hy
      refine ⟨h1, hf, hc, ?_, ?_, ?_, ?_⟩
      · rw [hs]
        simp only [List.filter_cons, hroom, not_true_eq_false, decide_False, Bool.false_eq_true,
          if_false]
        congr 2
        apply List.filter_congr
        intro y hy
        simp only [hsame y hy]
      · intro r hr hrr
        rw [List.map_cons, List.mem_cons] at hr
        rcases hr with rfl | hr
        · rw [hn _ hx]
          simp
        · rw [ha r hr (by simpa only [hsame1 r hr] using hrr)]
          simp only [hsame1 r hr]
      · intro r hr hrr
        rw [List.map_cons, List.mem_cons] at hr
        rcases hr with rfl | hr
        · exact absurd hroom hrr
        · rw [hb r hr (by simpa only [hsame1 r hr] using hrr)]
          simp only [hsame1 r hr]
      · intro r hr
        rw [List.map_cons, List.mem_cons, not_or] at hr
        rw [hn r hr.2]
        exact Function.update_noteq hr.1 _ _
    · rw [Hub.broadcastTo_some_of_full e h x hxo hroom]
      obtain ⟨h1, hf, hc, hs, ha, hb, hn⟩ :=
        ih { h with spawned := h.spawned ++ [x.2] } hnd1
          (fun y hy => hopen y (List.mem_cons_of_mem _ hy))
      refine ⟨h1, hf, hc, ?_, ?_, ?_, ?_⟩
      · rw [hs]
        simp [List.filter_cons, hroom]
      · intro r hr hrr
        rw [List.map_cons, List.mem_cons] at hr
        rcases hr with rfl | hr
        · exact absurd hrr hroom
        · exact ha r hr hrr
      · intro r hr hrr
        rw [List.map_cons, List.mem_cons] at hr
        rcases hr with rfl | hr
        · exact hn _ hx
        · exact hb r hr hrr
      · intro r hr
        rw [List.map_cons, List.mem_cons, not_or] at hr
        exact hn r hr.2

/-- The clients of a hub whose entries are stored under the id of their client are pairwise
different objects. -/
theorem Hub.refs_nodup (h : Hub)
    (hID : ∀ k r, h.clients.lookup k = some r → (h.heap r).ID = k) :
    (h.clients.entries.map Sigma.snd).Nodup := by
  have hkeys : h.clients.entries.map Sigma.fst =
      (h.clients.entries.map Sigma.snd).map (fun r => (h.heap r).ID) := by
    rw [List.map_map]
    apply List.map_congr_left
    intro x hx
    obtain ⟨k, r⟩ := x
    exact (hID k r (AList.mem_lookup_iff.mpr hx)).symm
  have hnd : (h.clients.entries.map Sigma.fst).Nodup := h.clients.keys_nodup
  rw [hkeys] at hnd
  exact List.Nodup.of_map _ hnd

theorem Hub.mem_refs_iff (h : Hub) (r : ClientRef) :
    r ∈ h.clients.entries.map Sigma.snd ↔ ∃ k, h.clients.lookup k = some r := by
  constructor
  · intro hr
    obtain ⟨x, hx, rfl⟩ := List.mem_map.mp hr
    obtain ⟨k, r⟩ := x
    exact ⟨k, AList.mem_lookup_iff.mpr hx⟩
  · rintro ⟨k, hk⟩
    exact List.mem_map.mpr ⟨⟨k, r⟩, AList.mem_lookup_iff.mp hk, rfl⟩

/-- The complete description of one broadcast on a hub whose entries are stored under the id of
their client and whose registered clients have open channels. -/
theorem Hub.onBroadcast_spec (h : Hub) (e : Event)
    (hID : ∀ k r, h.clients.lookup k = some r → (h.heap r).ID = k)
    (hopen : ∀ k r, h.clients.lookup k = some r → (h.heap r).Events.closed = false) :
    ∃ h1 : Hub, h.onBroadcast e = some h1 ∧
      h1.clients = h.clients ∧
      h1.spawned = h.spawned ++
        (h.clients.entries.filter (fun x => decide (¬ (h.heap x.2).hasRoom))).map Sigma.snd ∧
      (∀ k r, h.clients.lookup k = some r → (h.heap r).hasRoom →
        h1.heap r = (h.heap r).enqueue e) ∧
      (∀ k r, h.clients.lookup k = some r → ¬ (h.heap r).hasRoom → h1.heap r = h.heap r) ∧
      (∀ r, (∀ k, h.clients.lookup k ≠ some r) → h1.heap r = h.heap r) := by
  obtain ⟨h1, hf, hc, hs, ha, hb, hn⟩ :=
    foldl_broadcastTo e h.clients.entries h (Hub.refs_nodup h hID)
      (by
        intro x hx
        obtain ⟨k, r⟩ := x
        exact hopen k r (AList.mem_lookup_iff.mpr hx))
  refine ⟨h1, hf, hc, hs, ?_, ?_, ?_⟩
  · intro k r hk hroom
    exact ha r ((Hub.mem_refs_iff h r).mpr ⟨k, hk⟩) hroom
  · intro k r hk hfull
    exact hb r ((Hub.mem_refs_iff h r).mpr ⟨k, hk⟩) hfull
  · intro r hr
    apply hn
    intro hmem
    obtain ⟨k, hk⟩ := (Hub.mem_refs_iff h r).mp hmem
    exact hr k hk

/-- C11, the code on the failing input: two clients with the id "s1" are registered one after
the other (client 1 replaces client 0 in the map), then client 0 is unregistered. The entry
under "s1", which holds client 1, is removed, yet client 1 is not closed: the hub closes
client 0, the argument of the message. -/
theorem Hub_unregister_closes_argument_not_registered :
    (Hub.runAll (NewHub fun _ => NewClient "s1") [.register 0, .register 1]).map
        (fun h => (h.clients.lookup "s1", (h.heap 0).closed, (h.heap 1).closed)) =
      some (some 1, false, false) ∧
    (Hub.runAll (NewHub fun _ => NewClient "s1") [.register 0, .register 1, .unregister 0]).map
        (fun h => (h.clients.lookup "s1", (h.heap 0).closed, (h.heap 1).closed)) =
      some (none, true, false) := by
  constructor <;> decide

/-- What the `unregister` case does in general: nothing when no client is registered under the
id of its argument; otherwise the entry under that id is removed, the other entries stay, and
the argument is closed, which is the registered client only if the two are the same object. -/
theorem Hub.onUnregister_spec (h : Hub) (c : ClientRef) :
    (h.clients.lookup (h.heap c).ID = none → h.onUnregister c = h) ∧
    (∀ r, h.clients.lookup (h.heap c).ID = some r →
      (h.onUnregister c).clients.lookup (h.heap c).ID = none ∧
      (∀ k, k ≠ (h.heap c).ID → (h.onUnregister c).clients.lookup k = h.clients.lookup k) ∧
      ((h.onUnregister c).heap c).closed = true ∧
      (∀ r1, r1 ≠ c → (h.onUnregister c).heap r1 = h.heap r1)) := by
  constructor
  · intro hnone
    simp [Hub.onUnregister, hnone]
  · intro r hr
    have hstep : h.onUnregister c =
        { h with
          clients := h.clients.erase (h.heap c).ID
          heap := Function.update h.heap c (h.heap c).Close } := by
      simp [Hub.onUnregister, hr]
    rw [hstep]
    refine ⟨AList.lookup_erase _ _, fun k hk => AList.lookup_erase_ne hk, ?_, ?_⟩
    · show (Function.update h.heap c (h.heap c).Close c).closed = true
      rw [Function.update_same]
      unfold Client.Close
      cases hc : (h.heap c).closed <;> simp [hc]
    · intro r1 hr1
      exact Function.update_noteq hr1 _ _

/-! ## Frames written by `Send` -/

/-- C12, the claim fails: an open client is sent an event with a non-empty type whose payload
`json.Marshal` rejects. `Send` returns the error, and the response holds the type line alone,
without terminating blank line. -/
theorem Client_Send_unserializable_counterexample :
    (Client.Send (fun _ => .error "json: unsupported value: NaN") (NewClient "s1")
        { Kind := "update", Data := some (.num 0) }).2 = some "json: unsupported value: NaN" ∧
    (Client.Send (fun _ => .error "json: unsupported value: NaN") (NewClient "s1")
        { Kind := "update", Data := some (.num 0) }).1.Response = ["event: update\n"] ∧
    (NewClient "s1").closed = false := by
  refine ⟨rfl, rfl, rfl⟩

/-- C12 as amended: for every client and every event, whatever its type: on a closed client
`Send` returns the closed error and writes nothing; on an open client, an event without payload, or whose payload `json.Marshal` serializes, is answered
without error and exactly one frame is appended to the response: the type line, the id line
if and only if the id is non-empty, the data line with the serialization if and only if there
is a payload, and the blank line; if `json.Marshal` rejects the payload, `Send` returns its
error. After `Close` every `Send` fails, and `Close` on a closed client changes nothing. -/
theorem Client_Send_frame (marshal : JSON → Except String String) (c : Client) (e : Event) :
    (c.closed = true → c.Send marshal e = (c, some "client is closed")) ∧
    (c.closed = false → e.Data = none →
      c.Send marshal e = ({ c with Response := c.Response ++ frame e none }, none)) ∧
    (c.closed = false → ∀ payload data, e.Data = some payload → marshal payload = .ok data →
      c.Send marshal e = ({ c with Response := c.Response ++ frame e (some data) }, none)) ∧
    (c.closed = false → ∀ payload err, e.Data = some payload → marshal payload = .error err →
      (c.Send marshal e).2 = some err) ∧
    (∀ data : Option String,
      frame e data =
        ["event: " ++ e.Kind ++ "\n"] ++
        (if e.ID = "" then [] else ["id: " ++ e.ID ++ "\n"]) ++
        (match data with
         | some text => ["data: " ++ text ++ "\n"]
         | none => []) ++
        ["\n"]) ∧
    c.Close.closed = true ∧
    c.Close.Send marshal e = (c.Close, some "client is closed") ∧
    c.Close.Close = c.Close ∧
    (c.closed = true → c.Close = c) := by
  have hclose : c.Close.closed = true := by
    unfold Client.Close
    cases hc : c.closed <;> simp [hc]
  refine ⟨?_, ?_, ?_, ?_, ?_, hclose, ?_, ?_, ?_⟩
  · intro hc
    simp [Client.Send, hc]
  · intro hc hd
    by_cases hid : e.ID = "" <;> simp [Client.Send, hc, hd, frame, hid]
  · intro hc payload data hd hm
    by_cases hid : e.ID = "" <;> simp [Client.Send, hc, hd, hm, frame, hid]
  · intro hc payload err hd hm
    by_cases hid : e.ID = "" <;> simp [Client.Send, hc, hd, hm, hid]
  · intro data
    by_cases hid : e.ID = "" <;> simp [frame, hid]
  · simp [Client.Send, hclose]
  · unfold Client.Close
    cases hc : c.closed <;> simp [hc]
  · intro hc
    simp [Client.Close, hc]

theorem Client_Send_frame_witness :
    Client.Send (fun _ => .ok "\x7b\"sessionId\":\"s1\"\x7d") (NewClient "s1")
        { Kind := "connected", Data := some (.obj [("sessionId", .str "s1")]) } =
      ({ NewClient "s1" with
          Response := (NewClient "s1").Response ++
            frame { Kind := "connected", Data := some (.obj [("sessionId", .str "s1")]) }
              (some "\x7b\"sessionId\":\"s1\"\x7d") }, none) :=
  (Client_Send_frame (fun _ => .ok "\x7b\"sessionId\":\"s1\"\x7d") (NewClient "s1")
    { Kind := "connected", Data := some (.obj [("sessionId", .str "s1")]) }).2.2.1 rfl
    (.obj [("sessionId", .str "s1")]) "\x7b\"sessionId\":\"s1\"\x7d" rfl rfl

/-- C13, the claim fails: `Send` of an event with the empty type on an open client writes a
frame, whose type line carries the empty type. -/
theorem Client_Send_empty_type_counterexample :
    (Client.Send (fun _ => .ok "null") (NewClient "s1") { Kind := "" }).1.Response =
      ["event: \n", "\n"] ∧
    (Client.Send (fun _ => .ok "null") (NewClient "s1") { Kind := "" }).2 = none := by
  refine ⟨rfl, rfl⟩

/-- C13 as amended: `Send` does not look at the type. For an event with the empty type it
writes nothing on a closed client, and on an open client it writes the type line with the empty
type, followed by the rest of the frame when the payload is absent or serializes. The events
the transport server itself sends, `connected` when a stream is attached and `ping` on every
tick, have a non-empty type. -/
theorem Client_Send_empty_type (marshal : JSON → Except String String) (c : Client) (e : Event)
    (hk : e.Kind = "") :
    (c.closed = true → (c.Send marshal e).1 = c) ∧
    (c.closed = false → ∃ rest, (c.Send marshal e).1.Response = c.Response ++ "event: \n" :: rest) ∧
    (c.closed = false → e.Data = none →
      (c.Send marshal e).1.Response = c.Response ++ frame e none ∧
      (frame e none).head? = some "event: \n") ∧
    (∀ (s : Server) (client : ClientRef) (sessionID : String),
      ∀ ev ∈ sentEvents (handleSSE s client sessionID).1.effects, ev.Kind ≠ "") ∧
    (∀ (st : Stream) (case : SelectCase),
      ∀ ev ∈ sentEvents (handleSSELoop st case).1, ev.Kind ≠ "") := by
  refine ⟨?_, ?_, ?_, ?_, ?_⟩
  · intro hc
    simp [Client.Send, hc]
  · intro hc
    unfold Client.Send
    simp only [hc, Bool.false_eq_true, if_false, hk]
    by_cases hid : e.ID = ""
    · cases hd : e.Data with
      | none => exact ⟨["\n"], by simp [hid]⟩
      | some payload =>
        cases hm : marshal payload with
        | error err => exact ⟨[], by simp [hid, hm]⟩
        | ok data => exact ⟨["data: " ++ data ++ "\n", "\n"], by simp [hid, hm]⟩
    · cases hd : e.Data with
      | none => exact ⟨["id: " ++ e.ID ++ "\n", "\n"], by simp [hid]⟩
      | some payload =>
        cases hm : marshal payload with
        | error err => exact ⟨["id: " ++ e.ID ++ "\n"], by simp [hid, hm]⟩
        | ok data =>
          exact ⟨["id: " ++ e.ID ++ "\n", "data: " ++ data ++ "\n", "\n"], by simp [hid, hm]⟩
  · intro hc hd
    by_cases hid : e.ID = "" <;> simp [Client.Send, hc, hd, frame, hid, hk]
  · intro s client sessionID ev hev
    unfold handleSSE at hev
    split at hev
    · simp [sentEvents] at hev
    · split at hev
      · simp [sentEvents] at hev
      · simp [sentEvents] at hev
        subst hev
        show "connected" ≠ ""
        decide
  · intro st case ev hev
    cases case <;> simp [handleSSELoop, sentEvents] at hev
    subst hev
    decide

theorem Client_Send_empty_type_witness :
    ∃ rest, (Client.Send (fun _ => .ok "null") (NewClient "s1") { Kind := "" }).1.Response =
      (NewClient "s1").Response ++ "event: \n" :: rest :=
  (Client_Send_empty_type (fun _ => .ok "null") (NewClient "s1") { Kind := "" } rfl).2.1 rfl

/-! ## Runs of the hub -/

theorem Hub.Sound_onRegister (h : Hub) (c : ClientRef) (hs : h.Sound)
    (hc : (h.heap c).closed = false) : (h.onRegister c).Sound := by
  obtain ⟨h1, h2, h3⟩ := hs
  have hlook : ∀ k r, (h.onRegister c).clients.lookup k = some r →
      (k = (h.heap c).ID ∧ r = c) ∨ h.clients.lookup k = some r := by
    intro k r hk
    by_cases hkc : k = (h.heap c).ID
    · left
      subst hkc
      have : (h.onRegister c).clients.lookup (h.heap c).ID = some c := AList.lookup_insert _
      rw [this] at hk
      exact ⟨rfl, (Option.some.inj hk).symm⟩
    · right
      have : (h.onRegister c).clients.lookup k = h.clients.lookup k :=
        AList.lookup_insert_ne hkc
      rwa [this] at hk
  refine ⟨?_, ?_, h3⟩
  · intro k r hk
    rcases hlook k r hk with ⟨rfl, rfl⟩ | hold
    · rfl
    · exact h1 k r hold
  · intro k r hk
    rcases hlook k r hk with ⟨_, rfl⟩ | hold
    · exact hc
    · exact h2 k r hold

theorem Client.Close_coherent (c : Client) (h : c.Events.closed = c.closed) :
    c.Close.Events.closed = c.Close.closed := by
  unfold Client.Close
  cases hc : c.closed
  · simp
  · simp [h, hc]

theorem Hub.Sound_onUnregister (h : Hub) (c : ClientRef) (hs : h.Sound) :
    (h.onUnregister c).Sound := by
  obtain ⟨h1, h2, h3⟩ := hs
  unfold Hub.onUnregister
  split
  · have hlook : ∀ k r, (h.clients.erase (h.heap c).ID).lookup k = some r →
        h.clients.lookup k = some r ∧ r ≠ c := by
      intro k r hk
      have hkc : k ≠ (h.heap c).ID := by
        rintro rfl
        rw [AList.lookup_erase] at hk
        cases hk
      rw [AList.lookup_erase_ne hkc] at hk
      refine ⟨hk, ?_⟩
      rintro rfl
      exact hkc (h1 k r hk).symm
    refine ⟨?_, ?_, ?_⟩
    · intro k r hk
      obtain ⟨hold, hne⟩ := hlook k r hk
      show (Function.update h.heap c (h.heap c).Close r).ID = k
      rw [Function.update_noteq hne]
      exact h1 k r hold
    · intro k r hk
      obtain ⟨hold, hne⟩ := hlook k r hk
      show (Function.update h.heap c (h.heap c).Close r).closed = false
      rw [Function.update_noteq hne]
      exact h2 k r hold
    · intro r
      show (Function.update h.heap c (h.heap c).Close r).Events.closed =
        (Function.update h.heap c (h.heap c).Close r).closed
      by_cases hr : r = c
      · subst hr
        rw [Function.update_same]
        exact Client.Close_coherent _ (h3 r)
      · rw [Function.update_noteq hr]
        exact h3 r
  · exact ⟨h1, h2, h3⟩

theorem Hub.Sound_onBroadcast (h : Hub) (e : Event) (hs : h.Sound) :
    ∃ h1, h.onBroadcast e = some h1 ∧ h1.Sound := by
  obtain ⟨s1, s2, s3⟩ := hs
  obtain ⟨h1, hf, hc, _, ha, hb, hn⟩ := Hub.onBroadcast_spec h e s1
    (fun k r hk => by rw [s3 r]; exact s2 k r hk)
  have hkeep : ∀ r, (h1.heap r).ID = (h.heap r).ID ∧ (h1.heap r).closed = (h.heap r).closed ∧
      (h1.heap r).Events.closed = (h.heap r).Events.closed := by
    intro r
    by_cases hreg : ∃ k, h.clients.lookup k = some r
    · obtain ⟨k, hk⟩ := hreg
      by_cases hroom : (h.heap r).hasRoom
      · rw [ha k r hk hroom]; exact ⟨rfl, rfl, rfl⟩
      · rw [hb k r hk hroom]; exact ⟨rfl, rfl, rfl⟩
    · rw [hn r (fun k hk => hreg ⟨k, hk⟩)]
      exact ⟨rfl, rfl, rfl⟩
  refine ⟨h1, hf, ?_, ?_, ?_⟩
  · intro k r hk
    rw [hc] at hk
    rw [(hkeep r).1]
    exact s1 k r hk
  · intro k r hk
    rw [hc] at hk
    rw [(hkeep r).2.1]
    exact s2 k r hk
  · intro r
    rw [(hkeep r).2.1, (hkeep r).2.2]
    exact s3 r

/-- A run of the hub from a sound state in which only open clients are registered goes through
sound states and never panics. -/
theorem Hub.runAll_sound (msgs : List HubMsg) (h : Hub) (hs : h.Sound)
    (hreg : RegistersOpen h msgs) (n : Nat) :
    ∃ h1, Hub.runAll h (msgs.take n) = some h1 ∧ h1.Sound := by
  induction msgs generalizing h n with
  | nil => exact ⟨h, by simp [Hub.runAll], hs⟩
  | cons msg rest ih =>
    cases n with
    | zero => exact ⟨h, by simp [Hub.runAll], hs⟩
    | succ n =>
      obtain ⟨hopen, hrest⟩ := hreg
      have hstep : ∃ h1, h.Run msg = some h1 ∧ h1.Sound := by
        cases msg with
        | register c => exact ⟨_, rfl, Hub.Sound_onRegister h c hs (hopen c rfl)⟩
        | unregister c => exact ⟨_, rfl, Hub.Sound_onUnregister h c hs⟩
        | broadcast e => exact Hub.Sound_onBroadcast h e hs
      obtain ⟨h1, hrun, hs1⟩ := hstep
      obtain ⟨h2, hrun2, hs2⟩ := ih h1 hs1 (hrest h1 hrun) n
      refine ⟨h2, ?_, hs2⟩
      simp only [Hub.runAll, List.take_succ_cons, List.foldlM_cons, hrun]
      exact hrun2

/-- C15: in every run of the hub from the empty hub in which a client is only registered while
it is not closed, after every step no registered client is closed, neither by its flag nor by
its channel; no step panics, and a broadcast in the state reached does not panic either. -/
theorem Hub_registered_never_closed (heap : ClientRef → Client) (msgs : List HubMsg)
    (hco : ∀ r, (heap r).Events.closed = (heap r).closed)
    (hreg : RegistersOpen (NewHub heap) msgs) (n : Nat) :
    ∃ h : Hub, Hub.runAll (NewHub heap) (msgs.take n) = some h ∧
      (∀ k r, h.clients.lookup k = some r →
        (h.heap r).closed = false ∧ (h.heap r).Events.closed = false) ∧
      (∀ e : Event, ∃ h1, h.Run (.broadcast e) = some h1) := by
  have hs0 : (NewHub heap).Sound := by
    refine ⟨?_, ?_, hco⟩
    · intro k r hk
      simp [NewHub] at hk
    · intro k r hk
      simp [NewHub] at hk
  obtain ⟨h, hrun, hs⟩ := Hub.runAll_sound msgs (NewHub heap) hs0 hreg n
  refine ⟨h, hrun, ?_, ?_⟩
  · intro k r hk
    refine ⟨hs.2.1 k r hk, ?_⟩
    rw [hs.2.2 r]
    exact hs.2.1 k r hk
  · intro e
    obtain ⟨h1, hb, _⟩ := Hub.Sound_onBroadcast h e hs
    exact ⟨h1, hb⟩

theorem Hub_registered_never_closed_witness :
    ∃ h : Hub,
      Hub.runAll (NewHub fun _ => NewClient "s1")
        (List.take 3 [.register 0, .broadcast { Kind := "ping" }, .unregister 0]) = some h ∧
      (∀ k r, h.clients.lookup k = some r →
        (h.heap r).closed = false ∧ (h.heap r).Events.closed = false) :=
  let ⟨h, hrun, hopen, _⟩ := Hub_registered_never_closed (fun _ => NewClient "s1")
    [.register 0, .broadcast { Kind := "ping" }, .unregister 0] (fun _ => rfl)
    (by
      refine ⟨fun c _ => rfl, fun h1 _ => ⟨fun c hc => (by cases hc), fun h2 _ => ?_⟩⟩
      exact ⟨fun c hc => (by cases hc), fun _ _ => trivial⟩) 3
  ⟨h, hrun, hopen⟩

/-! ## Push streams and unregister requests -/

end MCP
